import Mathlib

/-!
Shallow embedding of the control-plane Provider Normalization and
Synchronization Engine:

* `N8N.normalizeWorkflow` and `Make.normalizeWorkflow` embed the two
  provider adapters (src/lib/demo-user.ts, src/lib/providers/make-adapter.ts);
* `Sync.reconcileOne` and `Sync.syncWorkflows` embed the three-tier
  upsert state machine of `N8NAdapter.syncWorkflows`;
* `Enrich.getEnrichmentForWorkflow` and `Enrich.detectDuplicates` embed
  the enrichment and duplicate-detection pass (src/lib/enrichment.ts).

Impure ingredients of the source (the wall clock, the database) are made
explicit parameters: `now` stands for `new Date()` / `Date.now()`, and the
keyed store is a `Store` value threaded through the sync functions.
-/

-- ─── String helpers ──────────────────────────────────────────────────────────

/-- Substring test on character lists, structurally recursive so that the
kernel can evaluate it on concrete inputs. -/
def containsSub (needle : List Char) : List Char → Bool
  | [] => needle.isPrefixOf []
  | c :: rest => needle.isPrefixOf (c :: rest) || containsSub needle rest

/-- Embeds the JavaScript `haystack.includes(needle)` substring test. -/
def strContains (hay needle : String) : Bool :=
  containsSub needle.data hay.data

/-- Embeds `String.prototype.toLowerCase` (character-wise lowering). -/
def strLower (s : String) : String :=
  ⟨s.data.map Char.toLower⟩

/-- Embeds `String.prototype.trim` (strip whitespace from both ends). -/
def strTrim (s : String) : String :=
  ⟨((s.data.dropWhile Char.isWhitespace).reverse.dropWhile Char.isWhitespace).reverse⟩

-- ─── Canonical graph model (src/lib/providers/types.ts) ──────────────────────

inductive NodeKind where
  | trigger
  | action
  | router
  | other
deriving DecidableEq, Repr

structure WorkflowGraphNode where
  id : String
  label : String
  kind : NodeKind
  type : String
deriving DecidableEq, Repr

/-- Graph edge; the source fields are named `from` and `to`. -/
structure WorkflowGraphEdge where
  fromId : String
  toId : String
deriving DecidableEq, Repr

structure WorkflowGraph where
  nodes : List WorkflowGraphNode
  edges : List WorkflowGraphEdge
deriving DecidableEq, Repr

/-- Canonical workflow produced by `normalizeWorkflow`. -/
structure Workflow where
  id : String
  name : String
  active : Bool
  provider : String
  connectionId : String
  graph : Option WorkflowGraph
  createdAt : String
  updatedAt : String
deriving DecidableEq, Repr

/-- Entry of a provider connections map: `{node, type, index}`. -/
structure ConnRef where
  node : String
  type : String
  index : Nat
deriving DecidableEq, Repr

/-- Value of one connections-map entry: `{ main?: ConnRef[][] }`. -/
structure ConnEntry where
  main : Option (List (List ConnRef))
deriving DecidableEq, Repr

-- ─── Name-to-id lookup table (JavaScript Map semantics) ──────────────────────

/-- Embeds `Map.set`: replace the value of an existing key in place,
otherwise append a fresh entry. -/
def mapSet (m : List (String × String)) (k v : String) : List (String × String) :=
  if m.any (fun p => p.1 == k) then
    m.map (fun p => if p.1 == k then (p.1, v) else p)
  else
    m ++ [(k, v)]

-- ─── n8n adapter (N8NAdapter in src/lib/demo-user.ts) ────────────────────────

namespace N8N

/-- Raw n8n node; every field the source reads is optional at runtime. -/
structure N8nNode where
  id : Option String
  name : Option String
  type : Option String
deriving DecidableEq, Repr

/-- Raw n8n workflow payload. -/
structure N8nWorkflow where
  id : Option String
  name : Option String
  active : Option Bool
  nodes : Option (List N8nNode)
  connections : Option (List (String × ConnEntry))
  createdAt : Option String
  updatedAt : Option String
deriving DecidableEq, Repr

/-- JavaScript truthiness of the `id` / `name` guard fields. -/
def truthy : Option String → Bool
  | none => false
  | some s => !s.isEmpty

/-- Node-kind derivation of `N8NAdapter.normalizeWorkflow`
(lines 129-139 of demo-user.ts): starts at `other`, then the if chain. -/
def classifyKind (nodeType : String) : NodeKind :=
  let typeLower := strLower nodeType
  if strContains typeLower "trigger" || strContains typeLower "webhook" then
    .trigger
  else if strContains typeLower "if" || strContains typeLower "switch" ||
      strContains typeLower "router" then
    .router
  else if !(strContains typeLower "trigger") then
    .action
  else
    .other

/-- `rawNodes.map((n, index) => ...)` building the graph nodes. -/
def graphNodes (rawNodes : List N8nNode) : List WorkflowGraphNode :=
  rawNodes.enum.map (fun p =>
    let index := p.1
    let n := p.2
    let nodeId := n.id.getD s!"node_{index}"
    let nodeName := n.name.getD s!"Node {index}"
    let nodeType := n.type.getD "unknown"
    { id := nodeId, label := nodeName, kind := classifyKind nodeType, type := nodeType })

/-- Accumulating loop of the name-to-id map construction. -/
def nameToIdAux (rawNodes : List N8nNode) :
    List WorkflowGraphNode → List (String × String) → List (String × String)
  | [], m => m
  | node :: rest, m =>
    match rawNodes.find? (fun n => n.name.getD "" == node.label) with
    | some originalNode => nameToIdAux rawNodes rest (mapSet m (originalNode.name.getD "") node.id)
    | none => nameToIdAux rawNodes rest m

/-- The name-to-id map: for each graph node, find the first raw node whose
name (defaulted to the empty string) equals the node label, and register
that raw name against the graph-node id. -/
def nameToId (rawNodes : List N8nNode) (gnodes : List WorkflowGraphNode) :
    List (String × String) :=
  nameToIdAux rawNodes gnodes []

/-- Edges contributed by one slot of a `main` connection array. -/
def slotEdges (m : List (String × String)) (sourceId : String) :
    List ConnRef → List WorkflowGraphEdge
  | [] => []
  | r :: rs =>
    match m.lookup r.node with
    | some targetId => { fromId := sourceId, toId := targetId } :: slotEdges m sourceId rs
    | none => slotEdges m sourceId rs

/-- Edges contributed by all slots of one connections-map entry. -/
def entryEdges (m : List (String × String)) (sourceId : String) :
    List (List ConnRef) → List WorkflowGraphEdge
  | [] => []
  | slot :: rest => slotEdges m sourceId slot ++ entryEdges m sourceId rest

/-- Walk of the whole connections map (`for ... of Object.entries`). -/
def collectEdges (m : List (String × String)) :
    List (String × ConnEntry) → List WorkflowGraphEdge
  | [] => []
  | (sourceNodeName, conn) :: rest =>
    match m.lookup sourceNodeName with
    | none => collectEdges m rest
    | some sourceId => entryEdges m sourceId (conn.main.getD []) ++ collectEdges m rest

/-- Graph construction part of `N8NAdapter.normalizeWorkflow`. -/
def buildGraph (raw : N8nWorkflow) : WorkflowGraph :=
  let rawNodes := raw.nodes.getD []
  let gnodes := graphNodes rawNodes
  let m := nameToId rawNodes gnodes
  { nodes := gnodes, edges := collectEdges m (raw.connections.getD []) }

/-- `N8NAdapter.normalizeWorkflow`; `now` stands for
`new Date().toISOString()`. -/
def normalizeWorkflow (raw : N8nWorkflow) (connectionId : String) (now : String) :
    Option Workflow :=
  if !truthy raw.id || !truthy raw.name then
    none
  else
    some {
      id := raw.id.getD ""
      name := raw.name.getD ""
      active := raw.active.getD false
      provider := "n8n"
      connectionId := connectionId
      graph := some (buildGraph raw)
      updatedAt := raw.updatedAt.getD now
      createdAt := raw.createdAt.getD now }

end N8N

-- ─── Make adapter (src/lib/providers/make-adapter.ts) ────────────────────────

namespace Make

/-- Raw Make module. -/
structure MakeNode where
  id : Option String
  name : Option String
  type : Option String
deriving DecidableEq, Repr

/-- Raw Make workflow payload; `enabled` is the `active` alias. -/
structure MakeWorkflow where
  id : Option String
  name : Option String
  enabled : Option Bool
  active : Option Bool
  modules : Option (List MakeNode)
  connections : Option (List (String × ConnEntry))
  createdAt : Option String
  updatedAt : Option String
deriving DecidableEq, Repr

/-- Node-kind derivation of `MakeAdapter.normalizeWorkflow`
(lines 86-93 of make-adapter.ts). -/
def classifyKind (moduleType : String) : NodeKind :=
  let typeLower := strLower moduleType
  if strContains typeLower "trigger" || strContains typeLower "webhook" then
    .trigger
  else if strContains typeLower "router" || strContains typeLower "filter" then
    .router
  else if !(strContains typeLower "trigger") then
    .action
  else
    .other

/-- `rawModules.map((m, index) => ...)` building the graph nodes. -/
def graphNodes (rawModules : List MakeNode) : List WorkflowGraphNode :=
  rawModules.enum.map (fun p =>
    let index := p.1
    let m := p.2
    let moduleId := m.id.getD s!"module_{index}"
    let moduleName := m.name.getD s!"Module {index}"
    let moduleType := m.type.getD "unknown"
    { id := moduleId, label := moduleName, kind := classifyKind moduleType, type := moduleType })

/-- Accumulating loop of the name-to-id map construction. -/
def nameToIdAux (rawModules : List MakeNode) :
    List WorkflowGraphNode → List (String × String) → List (String × String)
  | [], m => m
  | node :: rest, m =>
    match rawModules.find? (fun n => n.name.getD "" == node.label) with
    | some originalModule =>
      nameToIdAux rawModules rest (mapSet m (originalModule.name.getD "") node.id)
    | none => nameToIdAux rawModules rest m

/-- Name-to-id map over the raw modules, mirroring the n8n construction. -/
def nameToId (rawModules : List MakeNode) (gnodes : List WorkflowGraphNode) :
    List (String × String) :=
  nameToIdAux rawModules gnodes []

/-- Graph construction part of `MakeAdapter.normalizeWorkflow`; edge
collection is the same walk as in the n8n adapter. -/
def buildGraph (raw : MakeWorkflow) : WorkflowGraph :=
  let rawModules := raw.modules.getD []
  let gnodes := graphNodes rawModules
  let m := nameToId rawModules gnodes
  { nodes := gnodes, edges := N8N.collectEdges m (raw.connections.getD []) }

/-- `MakeAdapter.normalizeWorkflow`. -/
def normalizeWorkflow (raw : MakeWorkflow) (connectionId : String) (now : String) :
    Option Workflow :=
  if !N8N.truthy raw.id || !N8N.truthy raw.name then
    none
  else
    some {
      id := raw.id.getD ""
      name := raw.name.getD ""
      active := (raw.active.orElse (fun _ => raw.enabled)).getD false
      provider := "make"
      connectionId := connectionId
      graph := some (buildGraph raw)
      updatedAt := raw.updatedAt.getD now
      createdAt := raw.createdAt.getD now }

end Make

-- ─── Sync/Upsert engine (N8NAdapter.syncWorkflows, demo-user.ts 207-390) ─────

namespace Sync

/-- The connection handed to `syncWorkflows`. -/
structure ProviderConnection where
  id : String
  userId : String
deriving DecidableEq, Repr

/-- Legacy node shape written into the `actions` JSON field. -/
structure LegacyNode where
  id : String
  name : String
  type : String
  position : Nat × Nat
deriving DecidableEq, Repr

/-- The `actions` JSON value assembled before the upsert. -/
structure ActionsValue where
  nodes : List LegacyNode
  connections : List (String × List (List ConnRef))
  graph : Option WorkflowGraph
deriving DecidableEq, Repr

/-- Persisted Workflow record (prisma `Workflow` table during the key
migration window: `provider`, `externalId`, `toolWorkflowId` nullable). -/
structure WorkflowRecord where
  userId : String
  connectionId : String
  provider : Option String
  externalId : Option String
  toolWorkflowId : Option String
  name : String
  status : String
  triggerType : Option String
  triggerConfig : Option Unit
  actions : ActionsValue
  lastSyncedAt : Nat
deriving DecidableEq, Repr

/-- Append-only SyncLog entry. -/
inductive SyncStatus where
  | SUCCESS
  | PARTIAL
  | ERROR
deriving DecidableEq, Repr

structure SyncLogEntry where
  connectionId : String
  userId : String
  status : SyncStatus
  workflowsCount : Nat
  errorMessage : Option String
deriving DecidableEq, Repr

/-- The keyed store: workflow rows, the audit log, and the per-connection
`lastSyncedAt` column. -/
structure Store where
  workflows : List WorkflowRecord
  syncLogs : List SyncLogEntry
  connections : List (String × Option Nat)
deriving DecidableEq, Repr

/-- Result value of `syncWorkflows`. -/
structure SyncWorkflowsResult where
  success : Bool
  synced : Nat
  error : Option String
deriving DecidableEq, Repr

/-- Which arm of the three-tier reconciliation fired for one workflow. -/
inductive Branch where
  | current
  | legacy
  | created
deriving DecidableEq, Repr

/-- The current unique key `(provider, externalId)`. -/
def matchesCurrent (provider externalId : String) (r : WorkflowRecord) : Bool :=
  r.provider == some provider && r.externalId == some externalId

/-- The legacy unique key `(connectionId, toolWorkflowId)`. -/
def matchesLegacy (connectionId toolWorkflowId : String) (r : WorkflowRecord) : Bool :=
  r.connectionId == connectionId && r.toolWorkflowId == some toolWorkflowId

/-- Prisma `update` on a unique key: rewrite the first matching row. -/
def updateFirst (p : WorkflowRecord → Bool) (f : WorkflowRecord → WorkflowRecord) :
    List WorkflowRecord → List WorkflowRecord
  | [] => []
  | r :: rest => if p r then f r :: rest else r :: updateFirst p f rest

/-- `normalized.graph?.nodes.find(...)` for the trigger-node metadata. -/
def findTriggerNode (w : Workflow) : Option WorkflowGraphNode :=
  match w.graph with
  | some g => g.nodes.find? (fun n =>
      strContains (strLower n.type) "trigger" || strContains (strLower n.type) "webhook")
  | none => none

/-- Per-edge step of the legacy-connections rebuild: ensure the entry for
the source id exists, then push one single-element slot. -/
def pushConn (m : List (String × List (List ConnRef))) (k : String) (r : ConnRef) :
    List (String × List (List ConnRef)) :=
  if m.any (fun p => p.1 == k) then
    m.map (fun p => if p.1 == k then (p.1, p.2 ++ [[r]]) else p)
  else
    m ++ [(k, [[r]])]

/-- Conversion of the normalized graph back to the legacy `actions` shape
(demo-user.ts lines 245-275). -/
def buildActions (graph : Option WorkflowGraph) : ActionsValue :=
  let legacyNodes := ((graph.map (fun g => g.nodes)).getD []).map (fun n =>
    { id := n.id, name := n.label, type := n.type, position := (0, 0) })
  let legacyConnections := ((graph.map (fun g => g.edges)).getD []).foldl
    (fun m e => pushConn m e.fromId { node := e.toId, type := "main", index := 0 }) []
  { nodes := legacyNodes, connections := legacyConnections, graph := graph }

/-- Update applied on a current-key match (demo-user.ts lines 305-321):
name, status, trigger metadata, actions, connectionId and lastSyncedAt are
rewritten; a missing trigger node leaves `triggerType` unchanged (prisma
skips an `undefined` field). -/
def currentUpdate (conn : ProviderConnection) (now : Nat) (normalized : Workflow)
    (r : WorkflowRecord) : WorkflowRecord :=
  let triggerNode := findTriggerNode normalized
  { r with
    name := normalized.name
    status := if normalized.active then "active" else "inactive"
    triggerType := match triggerNode with
      | some t => some t.type
      | none => r.triggerType
    triggerConfig := if triggerNode.isSome then some () else none
    actions := buildActions normalized.graph
    connectionId := conn.id
    lastSyncedAt := now }

/-- Update applied on a legacy-key match (demo-user.ts lines 335-352): the
same in-place update plus the `provider`/`externalId` backfill. -/
def legacyUpdate (now : Nat) (normalized : Workflow)
    (r : WorkflowRecord) : WorkflowRecord :=
  let triggerNode := findTriggerNode normalized
  { r with
    provider := some normalized.provider
    externalId := some normalized.id
    name := normalized.name
    status := if normalized.active then "active" else "inactive"
    triggerType := match triggerNode with
      | some t => some t.type
      | none => r.triggerType
    triggerConfig := if triggerNode.isSome then some () else none
    actions := buildActions normalized.graph
    lastSyncedAt := now }

/-- The fresh record created when neither key matches (`upsertData`,
demo-user.ts lines 279-291 and 355-357). -/
def createRecord (conn : ProviderConnection) (now : Nat) (normalized : Workflow) :
    WorkflowRecord :=
  let triggerNode := findTriggerNode normalized
  { userId := conn.userId
    connectionId := conn.id
    provider := some normalized.provider
    externalId := some normalized.id
    toolWorkflowId := some normalized.id
    name := normalized.name
    status := if normalized.active then "active" else "inactive"
    triggerType := triggerNode.map (fun t => t.type)
    triggerConfig := if triggerNode.isSome then some () else none
    actions := buildActions normalized.graph
    lastSyncedAt := now }

/-- Three-tier reconciliation of a single normalized workflow against the
workflow rows (demo-user.ts lines 236-359).  `now` stands for the
`new Date()` written into `lastSyncedAt`.  Also reports which arm fired. -/
def reconcileOne (conn : ProviderConnection) (now : Nat) (normalized : Workflow)
    (ws : List WorkflowRecord) : List WorkflowRecord × Branch :=
  match ws.find? (matchesCurrent normalized.provider normalized.id) with
  | some _ =>
    (updateFirst (matchesCurrent normalized.provider normalized.id)
      (currentUpdate conn now normalized) ws, .current)
  | none =>
    match ws.find? (matchesLegacy conn.id normalized.id) with
    | some _ =>
      (updateFirst (matchesLegacy conn.id normalized.id)
        (legacyUpdate now normalized) ws, .legacy)
    | none =>
      (ws ++ [createRecord conn now normalized], .created)

/-- Reconciliation of a whole batch, also counting the workflows written
and recording the branch taken for each. -/
def reconcileBatch (conn : ProviderConnection) (now : Nat) :
    List Workflow → List WorkflowRecord → List WorkflowRecord × Nat × List Branch
  | [], ws => (ws, 0, [])
  | n :: rest, ws =>
    let (ws1, b) := reconcileOne conn now n ws
    let (ws2, k, bs) := reconcileBatch conn now rest ws1
    (ws2, k + 1, b :: bs)

/-- `prisma.syncLog.create` (the `logSync` helper). -/
def logSync (st : Store) (connectionId userId : String) (status : SyncStatus)
    (workflowsCount : Nat) (errorMessage : Option String) : Store :=
  { st with syncLogs := st.syncLogs ++
      [{ connectionId := connectionId, userId := userId, status := status,
         workflowsCount := workflowsCount, errorMessage := errorMessage }] }

/-- `prisma.connection.update` setting `lastSyncedAt`. -/
def touchConnection (st : Store) (connectionId : String) (now : Nat) : Store :=
  { st with connections := st.connections.map (fun p =>
      if p.1 == connectionId then (p.1, some now) else p) }

/-- Result of `fetchWorkflows` as consumed by `syncWorkflows` (the raw
payloads are n8n workflows). -/
structure FetchWorkflowsResult where
  success : Bool
  workflows : List N8N.N8nWorkflow
  error : Option String
deriving DecidableEq, Repr

/-- `N8NAdapter.syncWorkflows` (demo-user.ts lines 207-390) with the fetch
result, the ISO clock for normalization and the millisecond clock for the
store made explicit.  The exception path of the try/catch is not modelled:
every store operation here is total. -/
def syncWorkflows (conn : ProviderConnection) (fetchResult : FetchWorkflowsResult)
    (nowIso : String) (now : Nat) (st : Store) : Store × SyncWorkflowsResult :=
  if !fetchResult.success then
    (logSync st conn.id conn.userId .ERROR 0
      (some ((fetchResult.error).getD "Failed to fetch workflows")),
     { success := false, synced := 0, error := fetchResult.error })
  else
    let normalized := fetchResult.workflows.filterMap
      (fun raw => N8N.normalizeWorkflow raw conn.id nowIso)
    let (ws, synced, _) := reconcileBatch conn now normalized st.workflows
    let st1 := { st with workflows := ws }
    let st2 := touchConnection st1 conn.id now
    let st3 := logSync st2 conn.id conn.userId .SUCCESS synced none
    (st3, { success := true, synced := synced, error := none })

end Sync

-- ─── Enrichment and duplicate detection (src/lib/enrichment.ts) ──────────────

namespace Enrich

/-- Denormalized workflow projection consumed by the enrichment pass.
`lastExecutionDate` is modelled as milliseconds since the epoch (the source
holds an ISO string it immediately feeds to `new Date(...).getTime()`). -/
structure RawWorkflow where
  id : String
  name : String
  active : Bool
  triggerType : Option String
  nodesCount : Option Nat
  hasPublicWebhook : Option Bool
  nodes : Option (List Unit)
  lastExecutionStatus : Option String
  lastExecutionDate : Option Int
deriving DecidableEq, Repr

inductive WorkflowDomain where
  | Operations
  | Sales
  | MarketingGrowth
  | SupportCS
  | Finance
  | ProductEngineering
  | DataAnalytics
  | HR
  | Unknown
deriving DecidableEq, Repr

/-- The TS string value of each domain (used inside output phrases). -/
def domainStr : WorkflowDomain → String
  | .Operations => "Operations"
  | .Sales => "Sales"
  | .MarketingGrowth => "Marketing/Growth"
  | .SupportCS => "Support/CS"
  | .Finance => "Finance"
  | .ProductEngineering => "Product/Engineering"
  | .DataAnalytics => "Data/Analytics"
  | .HR => "HR"
  | .Unknown => "Unknown"

inductive RiskFlag where
  | public_webhook
  | no_trigger
  | inactive
  | high_complexity
  | unknown
deriving DecidableEq, Repr

inductive HealthStatus where
  | ok
  | warning
  | broken
deriving DecidableEq, Repr

structure WorkflowEnrichment where
  domain : WorkflowDomain
  output : String
  systems : List String
  riskFlags : List RiskFlag
  health : HealthStatus
  confidence : Nat
  reason : String
deriving DecidableEq, Repr

/-- `DOMAIN_KEYWORDS`, in source order (the order is the tie-break). -/
def domainKeywords : List (WorkflowDomain × List String) :=
  [(.Finance, ["invoice", "payment", "stripe", "billing", "accounting", "revenue", "payout"]),
   (.Sales, ["hubspot", "deal", "crm", "pipeline", "sales", "prospect"]),
   (.MarketingGrowth, ["campaign", "ads", "email", "marketing", "seo", "blog", "content",
      "nurture", "newsletter", "magnet", "lead"]),
   (.SupportCS, ["support", "zendesk", "ticket", "helpdesk", "intercom"]),
   (.ProductEngineering, ["deploy", "github", "ci", "build", "release", "linear", "jira",
      "engineering", "failure"]),
   (.Operations, ["sync", "report", "digest", "notification", "alert", "ops", "monitor",
      "automation", "weekly", "daily"]),
   (.DataAnalytics, ["analytics", "metric", "dashboard", "warehouse", "etl", "bigquery"]),
   (.HR, ["onboarding", "employee", "hiring", "recruitment", "payroll"])]

/-- `SYSTEM_KEYWORDS`, in source order. -/
def systemKeywords : List (String × String) :=
  [("slack", "Slack"), ("notion", "Notion"), ("airtable", "Airtable"),
   ("stripe", "Stripe"), ("gmail", "Gmail"), ("hubspot", "HubSpot"),
   ("github", "GitHub"), ("google sheets", "Google Sheets"), ("linear", "Linear"),
   ("openai", "OpenAI"), ("wordpress", "WordPress"), ("salesforce", "Salesforce"),
   ("jira", "Jira")]

/-- `detectDomain`: keyword-count maximum, strict improvement only, so ties
keep the earlier domain. -/
def detectDomain (name : String) : WorkflowDomain :=
  (domainKeywords.foldl (fun best p =>
    let count := (p.2.filter (fun kw => strContains name kw)).length
    if count > best.2 then (p.1, count) else best) (.Unknown, 0)).1

/-- `detectSystems`: first-seen order, each label at most once. -/
def detectSystems (name : String) : List String :=
  (systemKeywords.foldl (fun acc p =>
    if strContains name p.1 && !acc.1.contains p.2 then
      (acc.1 ++ [p.2], acc.2 ++ [p.2])
    else acc) ([], [])).2

/-- `deriveOutput`: priority-ordered output phrasing. -/
def deriveOutput (name : String) (systems : List String) (domain : WorkflowDomain) :
    String :=
  match systems with
  | s0 :: s1 :: _ => s!"Sync {s0} data to {s1}"
  | _ =>
    if strContains name "report" || strContains name "digest" then
      match systems with
      | s0 :: _ => s!"Send periodic report via {s0}"
      | [] => "Generate and distribute periodic report"
    else if strContains name "alert" || strContains name "notify" then
      match systems with
      | s0 :: _ => s!"Send alert notification to {s0}"
      | [] => "Send automated alert notification"
    else if strContains name "sync" then
      match systems with
      | s0 :: _ => s!"Sync data with {s0}"
      | [] => s!"Sync {strLower (domainStr domain)} data"
    else
      match systems with
      | [s0] => s!"{domainStr domain} automation via {s0}"
      | _ =>
        if domain != .Unknown then
          s!"Automated {strLower (domainStr domain)} workflow"
        else
          "Unconfigured workflow"

/-- `deriveRiskFlags`. -/
def deriveRiskFlags (raw : RawWorkflow) (name : String) (domain : WorkflowDomain)
    (systems : List String) : List RiskFlag :=
  let flags : List RiskFlag := []
  let flags := if !raw.active then flags ++ [.inactive] else flags
  let flags :=
    if raw.hasPublicWebhook.getD false || strContains name "webhook" then
      flags ++ [.public_webhook]
    else flags
  let flags :=
    if raw.triggerType.isSome &&
        ((raw.triggerType.getD "").isEmpty || raw.triggerType.getD "" == "none") then
      flags ++ [.no_trigger]
    else flags
  let nodeCount := ((raw.nodes.map (fun l => l.length)).orElse
    (fun _ => raw.nodesCount)).getD 0
  let flags := if nodeCount > 10 then flags ++ [.high_complexity] else flags
  let flags :=
    if domain == .Unknown && systems.isEmpty then flags ++ [.unknown] else flags
  flags

def STALE_THRESHOLD_DAYS : Int := 30

def msPerDay : Int := 86400000

/-- `deriveHealth`; `now` stands for `Date.now()` in milliseconds and the
staleness test `daysSince > 30` is the exact rational comparison
`now - t > 30 * 86400000`. -/
def deriveHealth (now : Int) (raw : RawWorkflow) (riskFlags : List RiskFlag) :
    HealthStatus :=
  if raw.lastExecutionStatus == some "error" then .broken
  else if (match raw.lastExecutionDate with
           | some t => decide (now - t > STALE_THRESHOLD_DAYS * msPerDay)
           | none => false) then .warning
  else if !raw.active && raw.lastExecutionDate == none then .warning
  else if ((riskFlags.filter (fun f => f != .inactive)).length > 0 : Bool) then .warning
  else .ok

/-- `deriveReason`; the day count in the staleness message is
`Math.round(daysSince)`, embedded as exact half-up rounding. -/
def deriveReason (now : Int) (raw : RawWorkflow) (domain : WorkflowDomain)
    (systems : List String) (health : HealthStatus) (confidence : Nat) : String :=
  let sysJoined := String.intercalate ", " systems
  if health == .broken && raw.lastExecutionStatus == some "error" then
    "Last execution failed"
  else
    let staleMsg : Option String :=
      if health == .warning then
        match raw.lastExecutionDate with
        | some t =>
          if now - t > STALE_THRESHOLD_DAYS * msPerDay then
            some s!"No execution in {(now - t + msPerDay / 2).fdiv msPerDay} days"
          else none
        | none => none
      else none
    match staleMsg with
    | some msg => msg
    | none =>
      if health == .warning && !raw.active && raw.lastExecutionDate == none then
        "Workflow inactive, never executed"
      else if confidence ≥ 85 then
        s!"Detected {domainStr domain} workflow using {sysJoined}"
      else if confidence ≥ 65 && domain != .Unknown then
        s!"Detected {domainStr domain} workflow (limited system info)"
      else if confidence ≥ 65 then
        s!"Detected systems: {sysJoined}"
      else
        "Insufficient data for classification"

/-- `getEnrichmentForWorkflow`; confidence 0.85 / 0.65 / 0.4 is scaled to
the integers 85 / 65 / 40. -/
def getEnrichmentForWorkflow (now : Int) (raw : RawWorkflow) : WorkflowEnrichment :=
  let name := strLower raw.name
  let domain := detectDomain name
  let systems := detectSystems name
  let output := deriveOutput name systems domain
  let riskFlags := deriveRiskFlags raw name domain systems
  let health := deriveHealth now raw riskFlags
  let hasDomain := domain != .Unknown
  let hasSystems := !systems.isEmpty
  let confidence : Nat :=
    if hasDomain && hasSystems then 85 else if hasDomain || hasSystems then 65 else 40
  let reason := deriveReason now raw domain systems health confidence
  { domain := domain, output := output, systems := systems, riskFlags := riskFlags,
    health := health, confidence := confidence, reason := reason }

-- ── Duplicate detection ──

/-- Workflow together with its enrichment, as consumed by
`detectDuplicates` (which reads only `id`, `name` and `enrichment`). -/
structure WorkflowWithEnrichment where
  id : String
  name : String
  enrichment : WorkflowEnrichment
deriving DecidableEq, Repr

inductive DupReason where
  | exact_name
  | probable
deriving DecidableEq, Repr

structure DuplicatePair where
  idA : String
  nameA : String
  idB : String
  nameB : String
  reason : DupReason
deriving DecidableEq, Repr

/-- `firstWords`: lower-case, split on runs of whitespace, the arrow
character and the hyphen, drop empties, keep the first three words (the
source default `count = 3`, the only value ever used). -/
def isSepChar (c : Char) : Bool :=
  c.isWhitespace || c == '→' || c == '-'

/-- Character-list splitting at every separator character (empty chunks
appear between consecutive separators and are filtered by the caller). -/
def splitChunks (p : Char → Bool) : List Char → List (List Char)
  | [] => [[]]
  | c :: rest =>
    match splitChunks p rest with
    | [] => [[]]
    | h :: t => if p c then [] :: h :: t else (c :: h) :: t

def firstWords (name : String) : String :=
  String.intercalate " "
    ((((splitChunks isSepChar (strLower name).data).map (fun l => String.mk l)).filter
      (fun s => !s.isEmpty)).take 3)

/-- Lexicographic character-list comparison (JavaScript default string
ordering), structurally recursive so the kernel can evaluate it. -/
def charListLt : List Char → List Char → Bool
  | [], [] => false
  | [], _ :: _ => true
  | _ :: _, [] => false
  | c :: cs, d :: ds =>
    if c.toNat < d.toNat then true
    else if d.toNat < c.toNat then false
    else charListLt cs ds

/-- JavaScript `a < b` on strings. -/
def strLt (a b : String) : Bool :=
  charListLt a.data b.data

/-- `[a.id, b.id].sort().join(":")`. -/
def pairKey (a b : WorkflowWithEnrichment) : String :=
  if strLt b.id a.id then b.id ++ ":" ++ a.id else a.id ++ ":" ++ b.id

/-- Exact duplicate test: `a.name.trim().toLowerCase() === b.name...`. -/
def exactCond (a b : WorkflowWithEnrichment) : Bool :=
  strLower (strTrim a.name) == strLower (strTrim b.name)

/-- Probable duplicate test: same non-Unknown domain, same output, same
nonempty first-words prefix. -/
def probCond (a b : WorkflowWithEnrichment) : Bool :=
  (a.enrichment.domain == b.enrichment.domain && a.enrichment.domain != .Unknown)
  && a.enrichment.output == b.enrichment.output
  && (firstWords a.name == firstWords b.name && (firstWords a.name).length > 0)

/-- Inner `j` loop of `detectDuplicates` for a fixed `a = workflows[i]`,
threading the `seen` key set. -/
def dupInner (a : WorkflowWithEnrichment) :
    List WorkflowWithEnrichment → List String → List DuplicatePair × List String
  | [], seen => ([], seen)
  | b :: rest, seen =>
    let key := pairKey a b
    if seen.contains key then dupInner a rest seen
    else if exactCond a b then
      let (ps, s1) := dupInner a rest (key :: seen)
      ({ idA := a.id, nameA := a.name, idB := b.id, nameB := b.name,
         reason := .exact_name } :: ps, s1)
    else if probCond a b then
      let (ps, s1) := dupInner a rest (key :: seen)
      ({ idA := a.id, nameA := a.name, idB := b.id, nameB := b.name,
         reason := .probable } :: ps, s1)
    else dupInner a rest seen

/-- Outer `i` loop of `detectDuplicates`. -/
def dupPairs : List WorkflowWithEnrichment → List String → List DuplicatePair
  | [], _ => []
  | a :: rest, seen =>
    let (ps, s1) := dupInner a rest seen
    ps ++ dupPairs rest s1

/-- `map.set(k, [...(map.get(k) ?? []), v])`. -/
def dmapSet (m : List (String × List String)) (k v : String) :
    List (String × List String) :=
  let cur := ((m.lookup k).getD []) ++ [v]
  if m.any (fun p => p.1 == k) then
    m.map (fun p => if p.1 == k then (p.1, cur) else p)
  else
    m ++ [(k, cur)]

/-- The id-to-names map assembled from the emitted pairs. -/
def buildDupMap (ps : List DuplicatePair) : List (String × List String) :=
  ps.foldl (fun m p => dmapSet (dmapSet m p.idA p.nameB) p.idB p.nameA) []

/-- `detectDuplicates`. -/
def detectDuplicates (workflows : List WorkflowWithEnrichment) :
    List DuplicatePair × List (String × List String) :=
  let ps := dupPairs workflows []
  (ps, buildDupMap ps)

end Enrich

-- ─── Helper lemmas: node-kind classification ─────────────────────────────────

theorem N8N.classifyKind_eq (t : String) :
    N8N.classifyKind t =
      (if strContains (strLower t) "trigger" || strContains (strLower t) "webhook" then
        NodeKind.trigger
      else if strContains (strLower t) "if" || strContains (strLower t) "switch" ||
          strContains (strLower t) "router" then
        NodeKind.router
      else
        NodeKind.action) := by
  unfold N8N.classifyKind
  cases h1 : strContains (strLower t) "trigger" <;>
    cases h2 : strContains (strLower t) "webhook" <;>
      simp [h1, h2]

theorem Make.classifyKind_cases (t : String) :
    Make.classifyKind t =
      (if strContains (strLower t) "trigger" || strContains (strLower t) "webhook" then
        NodeKind.trigger
      else if strContains (strLower t) "router" || strContains (strLower t) "filter" then
        NodeKind.router
      else
        NodeKind.action) := by
  unfold Make.classifyKind
  cases h1 : strContains (strLower t) "trigger" <;>
    cases h2 : strContains (strLower t) "webhook" <;>
      simp [h1, h2]

theorem N8N.mem_graphNodes_kind {l : List N8N.N8nNode} {n : WorkflowGraphNode}
    (h : n ∈ N8N.graphNodes l) : n.kind = N8N.classifyKind n.type := by
  unfold N8N.graphNodes at h
  obtain ⟨p, -, rfl⟩ := List.mem_map.mp h
  rfl

theorem Make.graphNodes_mem_kind {l : List Make.MakeNode} {n : WorkflowGraphNode}
    (h : n ∈ Make.graphNodes l) : n.kind = Make.classifyKind n.type := by
  unfold Make.graphNodes at h
  obtain ⟨p, -, rfl⟩ := List.mem_map.mp h
  rfl

theorem N8N.normalize_graph {raw : N8N.N8nWorkflow} {cid now : String} {wf : Workflow}
    (h : N8N.normalizeWorkflow raw cid now = some wf) :
    wf.graph = some (N8N.buildGraph raw) := by
  unfold N8N.normalizeWorkflow at h
  split at h
  · exact absurd h (by simp)
  · cases h
    rfl

theorem Make.normalizeWorkflow_graph {raw : Make.MakeWorkflow} {cid now : String} {wf : Workflow}
    (h : Make.normalizeWorkflow raw cid now = some wf) :
    wf.graph = some (Make.buildGraph raw) := by
  unfold Make.normalizeWorkflow at h
  split at h
  · exact absurd h (by simp)
  · cases h
    rfl

-- ─── Claims C3 and C10: node-kind classification ─────────────────────────────

/-- Claim C3 counterexample: the claimed router keyword set
{if, switch, router, filter} is wrong for both adapters.  The n8n adapter
(demo-user.ts line 135) tests only if/switch/router, so the node type
"n8n-nodes-base.filter" normalizes to kind `action`, not `router`; the Make
adapter (make-adapter.ts line 89) tests only router/filter, so the module
type "switch" normalizes to kind `action`, not `router`. -/
theorem claimC3_counterexample :
    ((N8N.normalizeWorkflow
        { id := some "1", name := some "wf", active := some false,
          nodes := some [{ id := some "n1", name := some "Filter",
                           type := some "n8n-nodes-base.filter" }],
          connections := none, createdAt := none, updatedAt := none } "c1" "t0").map
      (fun wf => wf.graph.map (fun g => g.nodes.map (fun n => n.kind)))
      = some (some [NodeKind.action]))
    ∧ ((Make.normalizeWorkflow
        { id := some "1", name := some "wf", enabled := none, active := some false,
          modules := some [{ id := some "m1", name := some "Switch",
                             type := some "switch" }],
          connections := none, createdAt := none, updatedAt := none } "c1" "t0").map
      (fun wf => wf.graph.map (fun g => g.nodes.map (fun n => n.kind)))
      = some (some [NodeKind.action]))
    ∧ NodeKind.action ≠ NodeKind.router := by
  refine ⟨by decide, by decide, by decide⟩

/-- Claim C3 (amended): for every graph node produced by normalization the
kind is derived from the lower-cased type in priority order, with the n8n
router keyword set {if, switch, router} and the Make router keyword set
{router, filter}: contains "trigger" or "webhook" gives trigger; else a
router keyword gives router; else action.  In particular
"n8n-nodes-base.webhook" yields trigger, "n8n-nodes-base.if" yields router
and "n8n-nodes-base.slack" yields action. -/
theorem claimC3_amended :
    (∀ (raw : N8N.N8nWorkflow) (cid now : String) (wf : Workflow) (g : WorkflowGraph),
      N8N.normalizeWorkflow raw cid now = some wf → wf.graph = some g →
      ∀ n ∈ g.nodes,
        n.kind =
          (if strContains (strLower n.type) "trigger"
              || strContains (strLower n.type) "webhook" then NodeKind.trigger
          else if strContains (strLower n.type) "if"
              || strContains (strLower n.type) "switch"
              || strContains (strLower n.type) "router" then NodeKind.router
          else NodeKind.action))
    ∧ (∀ (raw : Make.MakeWorkflow) (cid now : String) (wf : Workflow) (g : WorkflowGraph),
      Make.normalizeWorkflow raw cid now = some wf → wf.graph = some g →
      ∀ n ∈ g.nodes,
        n.kind =
          (if strContains (strLower n.type) "trigger"
              || strContains (strLower n.type) "webhook" then NodeKind.trigger
          else if strContains (strLower n.type) "router"
              || strContains (strLower n.type) "filter" then NodeKind.router
          else NodeKind.action))
    ∧ ((N8N.normalizeWorkflow
        { id := some "1", name := some "wf", active := some true,
          nodes := some [
            { id := some "n1", name := some "W", type := some "n8n-nodes-base.webhook" },
            { id := some "n2", name := some "I", type := some "n8n-nodes-base.if" },
            { id := some "n3", name := some "S", type := some "n8n-nodes-base.slack" }],
          connections := none, createdAt := none, updatedAt := none } "c1" "t0").map
      (fun wf => wf.graph.map (fun g => g.nodes.map (fun n => n.kind)))
      = some (some [NodeKind.trigger, NodeKind.router, NodeKind.action])) := by
  refine ⟨?_, ?_, by decide⟩
  · intro raw cid now wf g hwf hg n hn
    rw [N8N.normalize_graph hwf] at hg
    cases hg
    have hn2 : n ∈ N8N.graphNodes (raw.nodes.getD []) := by
      simpa [N8N.buildGraph] using hn
    rw [N8N.mem_graphNodes_kind hn2, N8N.classifyKind_eq]
  · intro raw cid now wf g hwf hg n hn
    rw [Make.normalizeWorkflow_graph hwf] at hg
    cases hg
    have hn2 : n ∈ Make.graphNodes (raw.modules.getD []) := by
      simpa [Make.buildGraph] using hn
    rw [Make.graphNodes_mem_kind hn2, Make.classifyKind_cases]

/-- Witness for claim C3 (amended) at a concrete workflow: one n8n node of
type "n8n-nodes-base.slack" is classified `action` by the stated formula. -/
theorem claimC3_amended_witness :
    N8N.normalizeWorkflow
      { id := some "1", name := some "wf", active := some false,
        nodes := some [{ id := some "n1", name := some "S",
                         type := some "n8n-nodes-base.slack" }],
        connections := none, createdAt := none, updatedAt := none } "c1" "t0"
      = some { id := "1", name := "wf", active := false, provider := "n8n",
               connectionId := "c1",
               graph := some { nodes := [{ id := "n1", label := "S",
                                           kind := .action,
                                           type := "n8n-nodes-base.slack" }],
                               edges := [] },
               createdAt := "t0", updatedAt := "t0" }
    ∧ ({ id := "n1", label := "S", kind := .action,
         type := "n8n-nodes-base.slack" } : WorkflowGraphNode).kind
      = (if strContains (strLower "n8n-nodes-base.slack") "trigger"
            || strContains (strLower "n8n-nodes-base.slack") "webhook" then NodeKind.trigger
        else if strContains (strLower "n8n-nodes-base.slack") "if"
            || strContains (strLower "n8n-nodes-base.slack") "switch"
            || strContains (strLower "n8n-nodes-base.slack") "router" then NodeKind.router
        else NodeKind.action) := by
  refine ⟨by decide, ?_⟩
  exact claimC3_amended.1
    { id := some "1", name := some "wf", active := some false,
      nodes := some [{ id := some "n1", name := some "S",
                       type := some "n8n-nodes-base.slack" }],
      connections := none, createdAt := none, updatedAt := none } "c1" "t0"
    { id := "1", name := "wf", active := false, provider := "n8n",
      connectionId := "c1",
      graph := some { nodes := [{ id := "n1", label := "S", kind := .action,
                                  type := "n8n-nodes-base.slack" }],
                      edges := [] },
      createdAt := "t0", updatedAt := "t0" }
    { nodes := [{ id := "n1", label := "S", kind := .action,
                  type := "n8n-nodes-base.slack" }], edges := [] }
    (by decide) (by decide)
    { id := "n1", label := "S", kind := .action, type := "n8n-nodes-base.slack" }
    (by decide)

/-- Claim C10: every node produced by either adapter has kind trigger,
router or action; the declared fallback kind `other` is unreachable because
the guard of the action arm (the type does not contain "trigger") always
holds once the trigger arm has failed. -/
theorem claimC10 :
    (∀ (raw : N8N.N8nWorkflow) (cid now : String) (wf : Workflow) (g : WorkflowGraph),
      N8N.normalizeWorkflow raw cid now = some wf → wf.graph = some g →
      ∀ n ∈ g.nodes,
        (n.kind = NodeKind.trigger ∨ n.kind = NodeKind.router ∨ n.kind = NodeKind.action)
        ∧ n.kind ≠ NodeKind.other)
    ∧ (∀ (raw : Make.MakeWorkflow) (cid now : String) (wf : Workflow) (g : WorkflowGraph),
      Make.normalizeWorkflow raw cid now = some wf → wf.graph = some g →
      ∀ n ∈ g.nodes,
        (n.kind = NodeKind.trigger ∨ n.kind = NodeKind.router ∨ n.kind = NodeKind.action)
        ∧ n.kind ≠ NodeKind.other) := by
  constructor
  · intro raw cid now wf g hwf hg n hn
    rw [N8N.normalize_graph hwf] at hg
    cases hg
    have hn2 : n ∈ N8N.graphNodes (raw.nodes.getD []) := by
      simpa [N8N.buildGraph] using hn
    rw [N8N.mem_graphNodes_kind hn2, N8N.classifyKind_eq]
    split
    · simp
    · split <;> simp
  · intro raw cid now wf g hwf hg n hn
    rw [Make.normalizeWorkflow_graph hwf] at hg
    cases hg
    have hn2 : n ∈ Make.graphNodes (raw.modules.getD []) := by
      simpa [Make.buildGraph] using hn
    rw [Make.graphNodes_mem_kind hn2, Make.classifyKind_cases]
    split
    · simp
    · split <;> simp

/-- Witness for claim C10 at a concrete Make workflow with one module. -/
theorem claimC10_witness :
    Make.normalizeWorkflow
      { id := some "7", name := some "m", enabled := some true, active := none,
        modules := some [{ id := some "m1", name := some "R", type := some "router" }],
        connections := none, createdAt := none, updatedAt := none } "c2" "t1"
      = some { id := "7", name := "m", active := true, provider := "make",
               connectionId := "c2",
               graph := some { nodes := [{ id := "m1", label := "R",
                                           kind := .router, type := "router" }],
                               edges := [] },
               createdAt := "t1", updatedAt := "t1" }
    ∧ (({ id := "m1", label := "R", kind := .router, type := "router" } :
          WorkflowGraphNode).kind = NodeKind.trigger
        ∨ ({ id := "m1", label := "R", kind := .router, type := "router" } :
          WorkflowGraphNode).kind = NodeKind.router
        ∨ ({ id := "m1", label := "R", kind := .router, type := "router" } :
          WorkflowGraphNode).kind = NodeKind.action)
    ∧ ({ id := "m1", label := "R", kind := .router, type := "router" } :
        WorkflowGraphNode).kind ≠ NodeKind.other := by
  refine ⟨by decide, ?_⟩
  have h := claimC10.2
    { id := some "7", name := some "m", enabled := some true, active := none,
      modules := some [{ id := some "m1", name := some "R", type := some "router" }],
      connections := none, createdAt := none, updatedAt := none } "c2" "t1"
    { id := "7", name := "m", active := true, provider := "make",
      connectionId := "c2",
      graph := some { nodes := [{ id := "m1", label := "R", kind := .router,
                                  type := "router" }], edges := [] },
      createdAt := "t1", updatedAt := "t1" }
    { nodes := [{ id := "m1", label := "R", kind := .router, type := "router" }],
      edges := [] }
    (by decide) (by decide)
    { id := "m1", label := "R", kind := .router, type := "router" }
    (by decide)
  exact ⟨h.1, h.2⟩

-- ─── Claim C4: normalization is deterministic and clock-independent ──────────

/-- Claim C4: normalizeWorkflow is deterministic and side-effect-free.  The
only impure input of the source function is the clock (used for the missing
timestamp defaults), made explicit here as `now`; the graph component of
the result is identical for any two clock values, so two calls on the same
raw payload yield structurally equal graphs: the same node list (ids,
labels, kinds, types) and the same edge list. -/
theorem claimC4 :
    (∀ (raw : N8N.N8nWorkflow) (cid now₁ now₂ : String),
      (N8N.normalizeWorkflow raw cid now₁).map (fun wf => wf.graph)
        = (N8N.normalizeWorkflow raw cid now₂).map (fun wf => wf.graph))
    ∧ (∀ (raw : Make.MakeWorkflow) (cid now₁ now₂ : String),
      (Make.normalizeWorkflow raw cid now₁).map (fun wf => wf.graph)
        = (Make.normalizeWorkflow raw cid now₂).map (fun wf => wf.graph)) := by
  constructor
  · intro raw cid now₁ now₂
    unfold N8N.normalizeWorkflow
    split <;> rfl
  · intro raw cid now₁ now₂
    unfold Make.normalizeWorkflow
    split <;> rfl

-- ─── Helper lemmas: edge endpoints resolve to node ids ───────────────────────

theorem lookup_mem_values {m : List (String × String)} {k v : String}
    (h : List.lookup k m = some v) : v ∈ m.map Prod.snd := by
  induction m with
  | nil => simp [List.lookup] at h
  | cons p rest ih =>
    rw [List.lookup] at h
    split at h
    · cases h
      simp
    · simpa using Or.inr (ih h)

theorem mapSet_values {m : List (String × String)} {k v x : String}
    (h : x ∈ (mapSet m k v).map Prod.snd) : x ∈ m.map Prod.snd ∨ x = v := by
  unfold mapSet at h
  split at h
  · obtain ⟨p, hp, rfl⟩ := List.mem_map.mp h
    obtain ⟨q, hq, hqe⟩ := List.mem_map.mp hp
    by_cases hk : q.1 == k
    · simp [hk] at hqe
      right
      rw [← hqe]
    · simp [hk] at hqe
      left
      rw [← hqe]
      exact List.mem_map.mpr ⟨q, hq, rfl⟩
  · rw [List.map_append] at h
    rcases List.mem_append.mp h with h1 | h2
    · exact Or.inl h1
    · simp at h2
      exact Or.inr h2

theorem N8N.nameToIdAux_values {S : String → Prop} {rawNodes : List N8N.N8nNode} :
    ∀ (l : List WorkflowGraphNode) (m0 : List (String × String)),
      (∀ x ∈ m0.map Prod.snd, S x) → (∀ n ∈ l, S n.id) →
      ∀ x ∈ (N8N.nameToIdAux rawNodes l m0).map Prod.snd, S x := by
  intro l
  induction l with
  | nil =>
    intro m0 h0 _ x hx
    exact h0 x hx
  | cons node rest ih =>
    intro m0 h0 hl x hx
    rw [N8N.nameToIdAux] at hx
    revert hx
    split
    · intro hx
      refine ih _ ?_ (fun n hn => hl n (List.mem_cons_of_mem _ hn)) x hx
      intro y hy
      rcases mapSet_values hy with h1 | rfl
      · exact h0 y h1
      · exact hl node (List.mem_cons_self node rest)
    · intro hx
      exact ih m0 h0 (fun n hn => hl n (List.mem_cons_of_mem _ hn)) x hx

theorem Make.nameToIdAux_value_ids {S : String → Prop} {rawModules : List Make.MakeNode} :
    ∀ (l : List WorkflowGraphNode) (m0 : List (String × String)),
      (∀ x ∈ m0.map Prod.snd, S x) → (∀ n ∈ l, S n.id) →
      ∀ x ∈ (Make.nameToIdAux rawModules l m0).map Prod.snd, S x := by
  intro l
  induction l with
  | nil =>
    intro m0 h0 _ x hx
    exact h0 x hx
  | cons node rest ih =>
    intro m0 h0 hl x hx
    rw [Make.nameToIdAux] at hx
    revert hx
    split
    · intro hx
      refine ih _ ?_ (fun n hn => hl n (List.mem_cons_of_mem _ hn)) x hx
      intro y hy
      rcases mapSet_values hy with h1 | rfl
      · exact h0 y h1
      · exact hl node (List.mem_cons_self node rest)
    · intro hx
      exact ih m0 h0 (fun n hn => hl n (List.mem_cons_of_mem _ hn)) x hx

theorem N8N.mem_slotEdges {m : List (String × String)} {sid : String}
    {l : List ConnRef} {e : WorkflowGraphEdge} (h : e ∈ N8N.slotEdges m sid l) :
    e.fromId = sid ∧ e.toId ∈ m.map Prod.snd := by
  induction l with
  | nil => simp [N8N.slotEdges] at h
  | cons r rs ih =>
    rw [N8N.slotEdges] at h
    revert h
    split
    · intro h
      rcases List.mem_cons.mp h with rfl | h2
      · exact ⟨rfl, lookup_mem_values (by assumption)⟩
      · exact ih h2
    · exact ih

theorem N8N.mem_entryEdges {m : List (String × String)} {sid : String}
    {slots : List (List ConnRef)} {e : WorkflowGraphEdge}
    (h : e ∈ N8N.entryEdges m sid slots) :
    e.fromId = sid ∧ e.toId ∈ m.map Prod.snd := by
  induction slots with
  | nil => simp [N8N.entryEdges] at h
  | cons slot rest ih =>
    rw [N8N.entryEdges] at h
    rcases List.mem_append.mp h with h1 | h2
    · exact N8N.mem_slotEdges h1
    · exact ih h2

theorem N8N.mem_collectEdges {m : List (String × String)}
    {conns : List (String × ConnEntry)} {e : WorkflowGraphEdge}
    (h : e ∈ N8N.collectEdges m conns) :
    e.fromId ∈ m.map Prod.snd ∧ e.toId ∈ m.map Prod.snd := by
  induction conns with
  | nil => simp [N8N.collectEdges] at h
  | cons entry rest ih =>
    rw [N8N.collectEdges] at h
    revert h
    split
    · exact ih
    · intro h
      rcases List.mem_append.mp h with h1 | h2
      · obtain ⟨h3, h4⟩ := N8N.mem_entryEdges h1
        exact ⟨h3 ▸ lookup_mem_values (by assumption), h4⟩
      · exact ih h2

-- ─── Claim C5: dangling references are dropped, edges stay internal ───────────

/-- Claim C5: normalization is total (the Lean embedding is a total
function, mirroring that the source never throws on malformed connection
maps), every edge of the returned graph has both endpoints equal to the id
of some node of the same graph, and a connections-map entry or slot
reference whose name does not resolve in the name-to-id lookup contributes
no edge at all. -/
theorem claimC5 :
    (∀ (raw : N8N.N8nWorkflow) (cid now : String) (wf : Workflow) (g : WorkflowGraph),
      N8N.normalizeWorkflow raw cid now = some wf → wf.graph = some g →
      ∀ e ∈ g.edges,
        (∃ n ∈ g.nodes, n.id = e.fromId) ∧ (∃ n ∈ g.nodes, n.id = e.toId))
    ∧ (∀ (raw : Make.MakeWorkflow) (cid now : String) (wf : Workflow) (g : WorkflowGraph),
      Make.normalizeWorkflow raw cid now = some wf → wf.graph = some g →
      ∀ e ∈ g.edges,
        (∃ n ∈ g.nodes, n.id = e.fromId) ∧ (∃ n ∈ g.nodes, n.id = e.toId))
    ∧ (∀ (m : List (String × String)) (srcName : String) (c : ConnEntry)
        (rest : List (String × ConnEntry)),
      List.lookup srcName m = none →
      N8N.collectEdges m ((srcName, c) :: rest) = N8N.collectEdges m rest)
    ∧ (∀ (m : List (String × String)) (sid : String) (r : ConnRef) (rs : List ConnRef),
      List.lookup r.node m = none →
      N8N.slotEdges m sid (r :: rs) = N8N.slotEdges m sid rs) := by
  refine ⟨?_, ?_, ?_, ?_⟩
  · intro raw cid now wf g hwf hg e he
    rw [N8N.normalize_graph hwf] at hg
    cases hg
    have hnodes : (N8N.buildGraph raw).nodes = N8N.graphNodes (raw.nodes.getD []) := rfl
    have hedges : (N8N.buildGraph raw).edges =
        N8N.collectEdges
          (N8N.nameToId (raw.nodes.getD []) (N8N.graphNodes (raw.nodes.getD [])))
          (raw.connections.getD []) := rfl
    rw [hedges] at he
    obtain ⟨h1, h2⟩ := N8N.mem_collectEdges he
    have hv : ∀ x ∈ (N8N.nameToId (raw.nodes.getD [])
        (N8N.graphNodes (raw.nodes.getD []))).map Prod.snd,
        x ∈ (N8N.graphNodes (raw.nodes.getD [])).map (fun n => n.id) := by
      intro x hx
      exact N8N.nameToIdAux_values _ [] (by simp)
        (fun n hn => List.mem_map.mpr ⟨n, hn, rfl⟩) x hx
    rw [hnodes]
    constructor
    · obtain ⟨n, hn, hni⟩ := List.mem_map.mp (hv _ h1)
      exact ⟨n, hn, hni⟩
    · obtain ⟨n, hn, hni⟩ := List.mem_map.mp (hv _ h2)
      exact ⟨n, hn, hni⟩
  · intro raw cid now wf g hwf hg e he
    rw [Make.normalizeWorkflow_graph hwf] at hg
    cases hg
    have hedges : (Make.buildGraph raw).edges =
        N8N.collectEdges
          (Make.nameToId (raw.modules.getD []) (Make.graphNodes (raw.modules.getD [])))
          (raw.connections.getD []) := rfl
    rw [hedges] at he
    obtain ⟨h1, h2⟩ := N8N.mem_collectEdges he
    have hv : ∀ x ∈ (Make.nameToId (raw.modules.getD [])
        (Make.graphNodes (raw.modules.getD []))).map Prod.snd,
        x ∈ (Make.graphNodes (raw.modules.getD [])).map (fun n => n.id) := by
      intro x hx
      exact Make.nameToIdAux_value_ids _ [] (by simp)
        (fun n hn => List.mem_map.mpr ⟨n, hn, rfl⟩) x hx
    show (∃ n ∈ (Make.buildGraph raw).nodes, n.id = e.fromId)
      ∧ (∃ n ∈ (Make.buildGraph raw).nodes, n.id = e.toId)
    have hnodes : (Make.buildGraph raw).nodes = Make.graphNodes (raw.modules.getD []) := rfl
    rw [hnodes]
    constructor
    · obtain ⟨n, hn, hni⟩ := List.mem_map.mp (hv _ h1)
      exact ⟨n, hn, hni⟩
    · obtain ⟨n, hn, hni⟩ := List.mem_map.mp (hv _ h2)
      exact ⟨n, hn, hni⟩
  · intro m srcName c rest hl
    rw [N8N.collectEdges, hl]
  · intro m sid r rs hl
    rw [N8N.slotEdges, hl]

/-- Witness for claim C5 at the end-to-end scenario payload: the single
edge of the normalized two-node workflow has both endpoints among the node
ids, and a dangling entry with an unresolvable source name contributes no
edge. -/
theorem claimC5_witness :
    (N8N.normalizeWorkflow
      { id := some "1", name := some "wf", active := some true,
        nodes := some [
          { id := some "n1", name := some "Webhook", type := some "n8n-nodes-base.webhook" },
          { id := some "n2", name := some "Slack", type := some "n8n-nodes-base.slack" }],
        connections := some [
          ("Webhook", { main := some [[{ node := "Slack", type := "main", index := 0 }]] }),
          ("Ghost", { main := some [[{ node := "Missing", type := "main", index := 0 }]] })],
        createdAt := none, updatedAt := none } "c1" "t0"
      = some { id := "1", name := "wf", active := true, provider := "n8n",
               connectionId := "c1",
               graph := some
                 { nodes := [
                     { id := "n1", label := "Webhook", kind := .trigger,
                       type := "n8n-nodes-base.webhook" },
                     { id := "n2", label := "Slack", kind := .action,
                       type := "n8n-nodes-base.slack" }],
                   edges := [{ fromId := "n1", toId := "n2" }] },
               createdAt := "t0", updatedAt := "t0" })
    ∧ ((∃ n ∈ [({ id := "n1", label := "Webhook", kind := .trigger,
                    type := "n8n-nodes-base.webhook" } : WorkflowGraphNode),
                  { id := "n2", label := "Slack", kind := .action,
                    type := "n8n-nodes-base.slack" }],
          n.id = ({ fromId := "n1", toId := "n2" } : WorkflowGraphEdge).fromId)
        ∧ (∃ n ∈ [({ id := "n1", label := "Webhook", kind := .trigger,
                       type := "n8n-nodes-base.webhook" } : WorkflowGraphNode),
                     { id := "n2", label := "Slack", kind := .action,
                       type := "n8n-nodes-base.slack" }],
          n.id = ({ fromId := "n1", toId := "n2" } : WorkflowGraphEdge).toId)) := by
  refine ⟨by decide, ?_⟩
  have h := claimC5.1
    { id := some "1", name := some "wf", active := some true,
      nodes := some [
        { id := some "n1", name := some "Webhook", type := some "n8n-nodes-base.webhook" },
        { id := some "n2", name := some "Slack", type := some "n8n-nodes-base.slack" }],
      connections := some [
        ("Webhook", { main := some [[{ node := "Slack", type := "main", index := 0 }]] }),
        ("Ghost", { main := some [[{ node := "Missing", type := "main", index := 0 }]] })],
      createdAt := none, updatedAt := none } "c1" "t0"
    { id := "1", name := "wf", active := true, provider := "n8n",
      connectionId := "c1",
      graph := some
        { nodes := [
            { id := "n1", label := "Webhook", kind := .trigger,
              type := "n8n-nodes-base.webhook" },
            { id := "n2", label := "Slack", kind := .action,
              type := "n8n-nodes-base.slack" }],
          edges := [{ fromId := "n1", toId := "n2" }] },
      createdAt := "t0", updatedAt := "t0" }
    { nodes := [
        { id := "n1", label := "Webhook", kind := .trigger,
          type := "n8n-nodes-base.webhook" },
        { id := "n2", label := "Slack", kind := .action,
          type := "n8n-nodes-base.slack" }],
      edges := [{ fromId := "n1", toId := "n2" }] }
    (by decide) (by decide)
    { fromId := "n1", toId := "n2" } (by decide)
  exact h

-- ─── Helper lemmas: list surgery for the keyed store ─────────────────────────

theorem find?_decomp {α : Type} {p : α → Bool} {l : List α} {a : α}
    (h : l.find? p = some a) :
    ∃ pre post, l = pre ++ a :: post ∧ ∀ x ∈ pre, p x = false := by
  induction l with
  | nil => simp [List.find?] at h
  | cons b rest ih =>
    rw [List.find?] at h
    revert h
    split
    · intro h
      cases h
      exact ⟨[], rest, rfl, by simp⟩
    · intro h
      obtain ⟨pre, post, hl, hpre⟩ := ih h
      refine ⟨b :: pre, post, by rw [hl]; rfl, ?_⟩
      intro x hx
      rcases List.mem_cons.mp hx with rfl | hx2
      · simpa using by assumption
      · exact hpre x hx2

theorem Sync.updateFirst_decomp {p : Sync.WorkflowRecord → Bool}
    {f : Sync.WorkflowRecord → Sync.WorkflowRecord}
    {pre post : List Sync.WorkflowRecord} {a : Sync.WorkflowRecord}
    (hpre : ∀ x ∈ pre, p x = false) (ha : p a = true) :
    Sync.updateFirst p f (pre ++ a :: post) = pre ++ f a :: post := by
  induction pre with
  | nil => simp [Sync.updateFirst, ha]
  | cons b rest ih =>
    have hb : p b = false := hpre b (List.mem_cons_self b rest)
    simp only [List.cons_append, Sync.updateFirst, hb]
    simp only [Bool.false_eq_true, if_false]
    exact congrArg (b :: ·) (ih (fun x hx => hpre x (List.mem_cons_of_mem _ hx)))

-- ─── Claim C1: the three-tier reconciliation, in strict order ────────────────

/-- Claim C1: for every incoming normalized workflow, reconciliation is a
strict three-tier match.  If a record matches the current key
`(provider, externalId)`, that record (the unique match; list surgery
exhibits it) is updated in place: name, status, trigger metadata, actions,
connectionId and lastSyncedAt are rewritten while both identity keys and
the owner are preserved, and the legacy branch is not taken.  Otherwise,
if a record matches the legacy key `(connectionId, toolWorkflowId)` with
toolWorkflowId equal to the normalized id, that record is updated and
`provider`/`externalId` are backfilled onto it.  Otherwise exactly one new
record is appended with provider, externalId and toolWorkflowId all
populated and toolWorkflowId equal to externalId. -/
theorem claimC1 (conn : Sync.ProviderConnection) (now : Nat) (normalized : Workflow)
    (ws : List Sync.WorkflowRecord) :
    (∀ r, ws.find? (Sync.matchesCurrent normalized.provider normalized.id) = some r →
      (Sync.reconcileOne conn now normalized ws).2 = Sync.Branch.current
      ∧ ∃ pre post r', ws = pre ++ r :: post
          ∧ (∀ x ∈ pre, Sync.matchesCurrent normalized.provider normalized.id x = false)
          ∧ (Sync.reconcileOne conn now normalized ws).1 = pre ++ r' :: post
          ∧ r'.name = normalized.name
          ∧ r'.status = (if normalized.active then "active" else "inactive")
          ∧ r'.actions = Sync.buildActions normalized.graph
          ∧ r'.connectionId = conn.id
          ∧ r'.lastSyncedAt = now
          ∧ r'.provider = r.provider
          ∧ r'.externalId = r.externalId
          ∧ r'.toolWorkflowId = r.toolWorkflowId
          ∧ r'.userId = r.userId)
    ∧ (∀ r, ws.find? (Sync.matchesCurrent normalized.provider normalized.id) = none →
      ws.find? (Sync.matchesLegacy conn.id normalized.id) = some r →
      (Sync.reconcileOne conn now normalized ws).2 = Sync.Branch.legacy
      ∧ ∃ pre post r', ws = pre ++ r :: post
          ∧ (∀ x ∈ pre, Sync.matchesLegacy conn.id normalized.id x = false)
          ∧ (Sync.reconcileOne conn now normalized ws).1 = pre ++ r' :: post
          ∧ r'.provider = some normalized.provider
          ∧ r'.externalId = some normalized.id
          ∧ r'.name = normalized.name
          ∧ r'.status = (if normalized.active then "active" else "inactive")
          ∧ r'.actions = Sync.buildActions normalized.graph
          ∧ r'.lastSyncedAt = now
          ∧ r'.toolWorkflowId = r.toolWorkflowId
          ∧ r'.connectionId = r.connectionId
          ∧ r'.userId = r.userId)
    ∧ (ws.find? (Sync.matchesCurrent normalized.provider normalized.id) = none →
      ws.find? (Sync.matchesLegacy conn.id normalized.id) = none →
      (Sync.reconcileOne conn now normalized ws).2 = Sync.Branch.created
      ∧ ∃ r', (Sync.reconcileOne conn now normalized ws).1 = ws ++ [r']
          ∧ r'.provider = some normalized.provider
          ∧ r'.externalId = some normalized.id
          ∧ r'.toolWorkflowId = some normalized.id
          ∧ r'.toolWorkflowId = r'.externalId
          ∧ r'.userId = conn.userId
          ∧ r'.connectionId = conn.id
          ∧ r'.name = normalized.name) := by
  refine ⟨?_, ?_, ?_⟩
  · intro r hr
    have hp := List.find?_some hr
    obtain ⟨pre, post, hl, hpre⟩ := find?_decomp hr
    unfold Sync.reconcileOne
    rw [hr]
    refine ⟨rfl, pre, post, Sync.currentUpdate conn now normalized r, hl, hpre, ?_,
      rfl, rfl, rfl, rfl, rfl, rfl, rfl, rfl, rfl⟩
    simp only
    rw [hl, Sync.updateFirst_decomp hpre hp]
  · intro r hc hr
    have hp := List.find?_some hr
    obtain ⟨pre, post, hl, hpre⟩ := find?_decomp hr
    unfold Sync.reconcileOne
    rw [hc, hr]
    refine ⟨rfl, pre, post, Sync.legacyUpdate now normalized r, hl, hpre, ?_,
      rfl, rfl, rfl, rfl, rfl, rfl, rfl, rfl, rfl⟩
    simp only
    rw [hl, Sync.updateFirst_decomp hpre hp]
  · intro hc hlg
    unfold Sync.reconcileOne
    rw [hc, hlg]
    exact ⟨rfl, Sync.createRecord conn now normalized, rfl, rfl, rfl, rfl, rfl, rfl,
      rfl, rfl⟩

/-- Witness for claim C1: on an empty store the create arm fires and the
new record carries both key generations. -/
theorem claimC1_witness :
    ([] : List Sync.WorkflowRecord).find?
      (Sync.matchesCurrent "n8n" "w1") = none
    ∧ ([] : List Sync.WorkflowRecord).find? (Sync.matchesLegacy "c1" "w1") = none
    ∧ (Sync.reconcileOne { id := "c1", userId := "u1" } 5
        { id := "w1", name := "wf", active := true, provider := "n8n",
          connectionId := "c1", graph := none, createdAt := "t", updatedAt := "t" }
        []).2 = Sync.Branch.created
    ∧ ∃ r', (Sync.reconcileOne { id := "c1", userId := "u1" } 5
        { id := "w1", name := "wf", active := true, provider := "n8n",
          connectionId := "c1", graph := none, createdAt := "t", updatedAt := "t" }
        []).1 = [] ++ [r']
        ∧ r'.provider = some "n8n"
        ∧ r'.externalId = some "w1"
        ∧ r'.toolWorkflowId = some "w1"
        ∧ r'.toolWorkflowId = r'.externalId
        ∧ r'.userId = "u1"
        ∧ r'.connectionId = "c1"
        ∧ r'.name = "wf" := by
  refine ⟨rfl, rfl, ?_⟩
  have h := (claimC1 { id := "c1", userId := "u1" } 5
    { id := "w1", name := "wf", active := true, provider := "n8n",
      connectionId := "c1", graph := none, createdAt := "t", updatedAt := "t" }
    []).2.2 rfl rfl
  exact h

-- ─── Helper lemmas: row counting for the no-duplication invariant ────────────

/-- Number of store rows matching the current key `(provider, externalId)`. -/
def Sync.countCurrent (p i : String) (ws : List Sync.WorkflowRecord) : Nat :=
  (ws.filter (Sync.matchesCurrent p i)).length

theorem Sync.countCurrent_append {p i : String} {a b : List Sync.WorkflowRecord} :
    Sync.countCurrent p i (a ++ b) = Sync.countCurrent p i a + Sync.countCurrent p i b := by
  simp [Sync.countCurrent, List.filter_append]

theorem Sync.countCurrent_eq_zero {p i : String} {ws : List Sync.WorkflowRecord} :
    Sync.countCurrent p i ws = 0 ↔ ws.find? (Sync.matchesCurrent p i) = none := by
  rw [Sync.countCurrent, List.length_eq_zero, List.filter_eq_nil_iff, List.find?_eq_none]

theorem Sync.updateFirst_length {q : Sync.WorkflowRecord → Bool}
    {f : Sync.WorkflowRecord → Sync.WorkflowRecord} {ws : List Sync.WorkflowRecord} :
    (Sync.updateFirst q f ws).length = ws.length := by
  induction ws with
  | nil => rfl
  | cons r rest ih =>
    rw [Sync.updateFirst]
    split
    · rfl
    · simpa using ih

theorem Sync.countCurrent_updateFirst {p i : String} {q : Sync.WorkflowRecord → Bool}
    {f : Sync.WorkflowRecord → Sync.WorkflowRecord} {ws : List Sync.WorkflowRecord}
    (hf : ∀ r, Sync.matchesCurrent p i (f r) = Sync.matchesCurrent p i r) :
    Sync.countCurrent p i (Sync.updateFirst q f ws) = Sync.countCurrent p i ws := by
  induction ws with
  | nil => rfl
  | cons r rest ih =>
    rw [Sync.updateFirst]
    split
    · simp only [Sync.countCurrent, List.filter_cons, hf r]
      split <;> simp_all [Sync.countCurrent]
    · simp only [Sync.countCurrent, List.filter_cons]
      split <;> simp_all [Sync.countCurrent]

theorem Sync.matchesCurrent_currentUpdate {p i : String} {conn : Sync.ProviderConnection}
    {now : Nat} {w : Workflow} {r : Sync.WorkflowRecord} :
    Sync.matchesCurrent p i (Sync.currentUpdate conn now w r) = Sync.matchesCurrent p i r :=
  rfl

theorem Sync.matchesCurrent_legacyUpdate {now : Nat} {w : Workflow}
    {r : Sync.WorkflowRecord} :
    Sync.matchesCurrent w.provider w.id (Sync.legacyUpdate now w r) = true := by
  simp [Sync.matchesCurrent, Sync.legacyUpdate]

theorem Sync.matchesCurrent_createRecord {conn : Sync.ProviderConnection} {now : Nat}
    {w : Workflow} :
    Sync.matchesCurrent w.provider w.id (Sync.createRecord conn now w) = true := by
  simp [Sync.matchesCurrent, Sync.createRecord]

/-- After reconciling a workflow against a store holding at most one row
for its current key, the store holds exactly one such row. -/
theorem Sync.reconcile_count_one {conn : Sync.ProviderConnection} {now : Nat}
    {w : Workflow} {ws : List Sync.WorkflowRecord}
    (h : Sync.countCurrent w.provider w.id ws ≤ 1) :
    Sync.countCurrent w.provider w.id (Sync.reconcileOne conn now w ws).1 = 1 := by
  unfold Sync.reconcileOne
  cases hc : ws.find? (Sync.matchesCurrent w.provider w.id) with
  | some r =>
    have hp := List.find?_some hc
    obtain ⟨pre, post, hl, hpre⟩ := find?_decomp hc
    simp only
    rw [hl, Sync.updateFirst_decomp hpre hp]
    have hsplit : Sync.countCurrent w.provider w.id ws
        = Sync.countCurrent w.provider w.id pre
          + (1 + Sync.countCurrent w.provider w.id post) := by
      rw [hl, Sync.countCurrent_append]
      congr 1
      simp [Sync.countCurrent, List.filter_cons, hp, Nat.add_comm]
    rw [hsplit] at h
    have hnew : Sync.countCurrent w.provider w.id
        (Sync.currentUpdate conn now w r :: post)
        = 1 + Sync.countCurrent w.provider w.id post := by
      simp [Sync.countCurrent, List.filter_cons, Sync.matchesCurrent_currentUpdate,
        hp, Nat.add_comm]
    rw [Sync.countCurrent_append, hnew]
    omega
  | none =>
    have hz : Sync.countCurrent w.provider w.id ws = 0 :=
      Sync.countCurrent_eq_zero.mpr hc
    have hall : ∀ x ∈ ws, ¬ Sync.matchesCurrent w.provider w.id x = true :=
      List.find?_eq_none.mp hc
    cases hlg : ws.find? (Sync.matchesLegacy conn.id w.id) with
    | some r =>
      have hp := List.find?_some hlg
      obtain ⟨pre, post, hl, hpre⟩ := find?_decomp hlg
      simp only
      rw [hl, Sync.updateFirst_decomp hpre hp]
      have hpre0 : Sync.countCurrent w.provider w.id pre = 0 := by
        simp only [Sync.countCurrent, List.length_eq_zero, List.filter_eq_nil_iff]
        intro x hx
        exact hall x (by rw [hl]; exact List.mem_append_left _ hx)
      have hpost0 : Sync.countCurrent w.provider w.id post = 0 := by
        simp only [Sync.countCurrent, List.length_eq_zero, List.filter_eq_nil_iff]
        intro x hx
        exact hall x (by
          rw [hl]
          exact List.mem_append_right _ (List.mem_cons_of_mem _ hx))
      have hnew : Sync.countCurrent w.provider w.id
          (Sync.legacyUpdate now w r :: post)
          = 1 + Sync.countCurrent w.provider w.id post := by
        simp [Sync.countCurrent, List.filter_cons, Sync.matchesCurrent_legacyUpdate,
          Nat.add_comm]
      rw [Sync.countCurrent_append, hnew]
      omega
    | none =>
      simp only
      rw [Sync.countCurrent_append, hz]
      simp [Sync.countCurrent, List.filter_cons, Sync.matchesCurrent_createRecord]

/-- Reconciling against a store that already holds a current-key row takes
the current arm, preserves the row count for the key and the total length. -/
theorem Sync.reconcile_current_stable {conn : Sync.ProviderConnection} {now : Nat}
    {w : Workflow} {ws : List Sync.WorkflowRecord}
    (h : 1 ≤ Sync.countCurrent w.provider w.id ws) :
    (Sync.reconcileOne conn now w ws).2 = Sync.Branch.current
    ∧ (Sync.reconcileOne conn now w ws).1.length = ws.length
    ∧ Sync.countCurrent w.provider w.id (Sync.reconcileOne conn now w ws).1
        = Sync.countCurrent w.provider w.id ws := by
  have hc : ws.find? (Sync.matchesCurrent w.provider w.id) ≠ none := by
    intro hn
    rw [← Sync.countCurrent_eq_zero] at hn
    omega
  unfold Sync.reconcileOne
  cases hfind : ws.find? (Sync.matchesCurrent w.provider w.id) with
  | none => exact absurd hfind hc
  | some r =>
    refine ⟨rfl, ?_, ?_⟩
    · exact Sync.updateFirst_length
    · exact Sync.countCurrent_updateFirst (fun r => Sync.matchesCurrent_currentUpdate)

theorem Sync.reconcileBatch_cons {conn : Sync.ProviderConnection} {now : Nat}
    {n : Workflow} {rest : List Workflow} {ws : List Sync.WorkflowRecord} :
    Sync.reconcileBatch conn now (n :: rest) ws =
      ((Sync.reconcileBatch conn now rest (Sync.reconcileOne conn now n ws).1).1,
       (Sync.reconcileBatch conn now rest (Sync.reconcileOne conn now n ws).1).2.1 + 1,
       (Sync.reconcileOne conn now n ws).2 ::
         (Sync.reconcileBatch conn now rest (Sync.reconcileOne conn now n ws).1).2.2) :=
  rfl

/-- Once the store holds exactly one current-key row for the workflow,
replaying any batch of syncs of that workflow keeps the length and the
count unchanged and every branch taken is the current arm. -/
theorem Sync.batch_stable {conn : Sync.ProviderConnection} {now : Nat} {p i : String} :
    ∀ (l : List Workflow) (ws : List Sync.WorkflowRecord),
      (∀ w ∈ l, w.provider = p ∧ w.id = i) →
      Sync.countCurrent p i ws = 1 →
      (Sync.reconcileBatch conn now l ws).1.length = ws.length
      ∧ Sync.countCurrent p i (Sync.reconcileBatch conn now l ws).1 = 1
      ∧ ∀ b ∈ (Sync.reconcileBatch conn now l ws).2.2, b = Sync.Branch.current := by
  intro l
  induction l with
  | nil =>
    intro ws _ hcount
    exact ⟨rfl, hcount, by simp [Sync.reconcileBatch]⟩
  | cons w rest ih =>
    intro ws hall hcount
    obtain ⟨hwp, hwi⟩ := hall w (List.mem_cons_self w rest)
    have hstep := @Sync.reconcile_current_stable conn now w ws
      (by rw [hwp, hwi, hcount])
    rw [hwp, hwi] at hstep
    have hrest := ih (Sync.reconcileOne conn now w ws).1
      (fun x hx => hall x (List.mem_cons_of_mem _ hx))
      (by rw [hstep.2.2, hcount])
    rw [Sync.reconcileBatch_cons]
    refine ⟨by rw [hrest.1, hstep.2.1], hrest.2.1, ?_⟩
    intro b hb
    rcases List.mem_cons.mp hb with rfl | hb2
    · exact hstep.1
    · exact hrest.2.2 b hb2

-- ─── Claim C2: no duplication, idempotent row count ──────────────────────────

/-- Claim C2: the create arm fires exactly when neither the current key nor
the legacy key matches an existing record; and for any store holding at
most one row for the workflow current key (the uniqueness the database
constraint guarantees), any sequence of one or more syncs of workflows
sharing that `(provider, id)` leaves exactly one matching row, and every
replay after the first sync leaves the row count unchanged. -/
theorem claimC2 (conn : Sync.ProviderConnection) (now : Nat) (w₀ : Workflow)
    (wfs : List Workflow) (ws : List Sync.WorkflowRecord)
    (hall : ∀ w ∈ wfs, w.provider = w₀.provider ∧ w.id = w₀.id)
    (hu : Sync.countCurrent w₀.provider w₀.id ws ≤ 1) :
    ((Sync.reconcileOne conn now w₀ ws).2 = Sync.Branch.created ↔
      ws.find? (Sync.matchesCurrent w₀.provider w₀.id) = none
      ∧ ws.find? (Sync.matchesLegacy conn.id w₀.id) = none)
    ∧ Sync.countCurrent w₀.provider w₀.id
        (Sync.reconcileBatch conn now (w₀ :: wfs) ws).1 = 1
    ∧ (Sync.reconcileBatch conn now (w₀ :: wfs) ws).1.length
        = (Sync.reconcileOne conn now w₀ ws).1.length := by
  have hcount1 := @Sync.reconcile_count_one conn now w₀ ws hu
  have hrest := @Sync.batch_stable conn now w₀.provider w₀.id wfs
    (Sync.reconcileOne conn now w₀ ws).1 hall hcount1
  refine ⟨?_, ?_, ?_⟩
  · unfold Sync.reconcileOne
    cases hc : ws.find? (Sync.matchesCurrent w₀.provider w₀.id) with
    | some r => simp
    | none =>
      cases hlg : ws.find? (Sync.matchesLegacy conn.id w₀.id) with
      | some r => simp
      | none => simp
  · rw [Sync.reconcileBatch_cons]
    exact hrest.2.1
  · rw [Sync.reconcileBatch_cons]
    exact hrest.1

/-- Witness for claim C2: syncing the same workflow three times into an
empty store creates exactly one row and the replays change nothing. -/
theorem claimC2_witness :
    (∀ w ∈ [({ id := "w1", name := "wf b", active := false, provider := "n8n",
               connectionId := "c1", graph := none, createdAt := "t",
               updatedAt := "t" } : Workflow),
            { id := "w1", name := "wf c", active := true, provider := "n8n",
              connectionId := "c1", graph := none, createdAt := "t",
              updatedAt := "t" }],
        w.provider = ({ id := "w1", name := "wf a", active := true, provider := "n8n",
                        connectionId := "c1", graph := none, createdAt := "t",
                        updatedAt := "t" } : Workflow).provider
        ∧ w.id = ({ id := "w1", name := "wf a", active := true, provider := "n8n",
                    connectionId := "c1", graph := none, createdAt := "t",
                    updatedAt := "t" } : Workflow).id)
    ∧ Sync.countCurrent "n8n" "w1" [] ≤ 1
    ∧ Sync.countCurrent "n8n" "w1"
        (Sync.reconcileBatch { id := "c1", userId := "u1" } 5
          [{ id := "w1", name := "wf a", active := true, provider := "n8n",
             connectionId := "c1", graph := none, createdAt := "t", updatedAt := "t" },
           { id := "w1", name := "wf b", active := false, provider := "n8n",
             connectionId := "c1", graph := none, createdAt := "t", updatedAt := "t" },
           { id := "w1", name := "wf c", active := true, provider := "n8n",
             connectionId := "c1", graph := none, createdAt := "t", updatedAt := "t" }]
          []).1 = 1 := by
  refine ⟨by decide, by decide, ?_⟩
  exact (claimC2 { id := "c1", userId := "u1" } 5
    { id := "w1", name := "wf a", active := true, provider := "n8n",
      connectionId := "c1", graph := none, createdAt := "t", updatedAt := "t" }
    [{ id := "w1", name := "wf b", active := false, provider := "n8n",
       connectionId := "c1", graph := none, createdAt := "t", updatedAt := "t" },
     { id := "w1", name := "wf c", active := true, provider := "n8n",
       connectionId := "c1", graph := none, createdAt := "t", updatedAt := "t" }]
    [] (by decide) (by decide)).2.1

-- ─── Claim C6: migration convergence ─────────────────────────────────────────

/-- Claim C6: starting from a store whose only identity for the workflow is
a legacy record (no current-key match; the legacy lookup returns a record
whose `provider` and `externalId` are null), a single sync takes the legacy
arm, updates that same record in place (list surgery exhibits the identical
prefix and suffix) and populates both `provider` and `externalId`; and
every subsequent sync of the same workflow takes the current arm, never
re-checking the legacy key. -/
theorem claimC6 (conn : Sync.ProviderConnection) (now now₂ : Nat) (w : Workflow)
    (ws : List Sync.WorkflowRecord) (r₀ : Sync.WorkflowRecord)
    (hc : ws.find? (Sync.matchesCurrent w.provider w.id) = none)
    (hlg : ws.find? (Sync.matchesLegacy conn.id w.id) = some r₀)
    (_hprov : r₀.provider = none) (_hext : r₀.externalId = none) :
    (Sync.reconcileOne conn now w ws).2 = Sync.Branch.legacy
    ∧ (∃ pre post, ws = pre ++ r₀ :: post
        ∧ (Sync.reconcileOne conn now w ws).1
            = pre ++ Sync.legacyUpdate now w r₀ :: post)
    ∧ (Sync.legacyUpdate now w r₀).provider = some w.provider
    ∧ (Sync.legacyUpdate now w r₀).externalId = some w.id
    ∧ ∀ (l : List Workflow),
        (∀ w₂ ∈ l, w₂.provider = w.provider ∧ w₂.id = w.id) →
        ∀ b ∈ (Sync.reconcileBatch conn now₂ l
                (Sync.reconcileOne conn now w ws).1).2.2,
          b = Sync.Branch.current := by
  have hp := List.find?_some hlg
  obtain ⟨pre, post, hl, hpre⟩ := find?_decomp hlg
  have hu : Sync.countCurrent w.provider w.id ws ≤ 1 := by
    rw [Sync.countCurrent_eq_zero.mpr hc]
    omega
  have hcount1 := @Sync.reconcile_count_one conn now w ws hu
  refine ⟨?_, ⟨pre, post, hl, ?_⟩, rfl, rfl, ?_⟩
  · unfold Sync.reconcileOne
    rw [hc, hlg]
  · unfold Sync.reconcileOne
    rw [hc, hlg]
    simp only
    rw [hl, Sync.updateFirst_decomp hpre hp]
  · intro l hall b hb
    exact (Sync.batch_stable l _ hall hcount1).2.2 b hb

/-- Witness for claim C6 at a one-row legacy store. -/
theorem claimC6_witness :
    ([({ userId := "u1", connectionId := "c1", provider := none, externalId := none,
         toolWorkflowId := some "w1", name := "old", status := "inactive",
         triggerType := none, triggerConfig := none,
         actions := { nodes := [], connections := [], graph := none },
         lastSyncedAt := 0 } : Sync.WorkflowRecord)].find?
      (Sync.matchesCurrent "n8n" "w1") = none)
    ∧ ([({ userId := "u1", connectionId := "c1", provider := none, externalId := none,
           toolWorkflowId := some "w1", name := "old", status := "inactive",
           triggerType := none, triggerConfig := none,
           actions := { nodes := [], connections := [], graph := none },
           lastSyncedAt := 0 } : Sync.WorkflowRecord)].find?
        (Sync.matchesLegacy "c1" "w1")
      = some { userId := "u1", connectionId := "c1", provider := none,
               externalId := none, toolWorkflowId := some "w1", name := "old",
               status := "inactive", triggerType := none, triggerConfig := none,
               actions := { nodes := [], connections := [], graph := none },
               lastSyncedAt := 0 })
    ∧ (Sync.reconcileOne { id := "c1", userId := "u1" } 7
        { id := "w1", name := "wf", active := true, provider := "n8n",
          connectionId := "c1", graph := none, createdAt := "t", updatedAt := "t" }
        [{ userId := "u1", connectionId := "c1", provider := none, externalId := none,
           toolWorkflowId := some "w1", name := "old", status := "inactive",
           triggerType := none, triggerConfig := none,
           actions := { nodes := [], connections := [], graph := none },
           lastSyncedAt := 0 }]).2 = Sync.Branch.legacy
    ∧ ∀ b ∈ (Sync.reconcileBatch { id := "c1", userId := "u1" } 9
        [({ id := "w1", name := "wf", active := true, provider := "n8n",
            connectionId := "c1", graph := none, createdAt := "t", updatedAt := "t" } :
          Workflow)]
        (Sync.reconcileOne { id := "c1", userId := "u1" } 7
          { id := "w1", name := "wf", active := true, provider := "n8n",
            connectionId := "c1", graph := none, createdAt := "t", updatedAt := "t" }
          [{ userId := "u1", connectionId := "c1", provider := none,
             externalId := none, toolWorkflowId := some "w1", name := "old",
             status := "inactive", triggerType := none, triggerConfig := none,
             actions := { nodes := [], connections := [], graph := none },
             lastSyncedAt := 0 }]).1).2.2, b = Sync.Branch.current := by
  have h := claimC6 { id := "c1", userId := "u1" } 7 9
    { id := "w1", name := "wf", active := true, provider := "n8n",
      connectionId := "c1", graph := none, createdAt := "t", updatedAt := "t" }
    [{ userId := "u1", connectionId := "c1", provider := none, externalId := none,
       toolWorkflowId := some "w1", name := "old", status := "inactive",
       triggerType := none, triggerConfig := none,
       actions := { nodes := [], connections := [], graph := none },
       lastSyncedAt := 0 }]
    { userId := "u1", connectionId := "c1", provider := none, externalId := none,
      toolWorkflowId := some "w1", name := "old", status := "inactive",
      triggerType := none, triggerConfig := none,
      actions := { nodes := [], connections := [], graph := none },
      lastSyncedAt := 0 }
    (by decide) (by decide) rfl rfl
  exact ⟨by decide, by decide, h.1, h.2.2.2.2 _ (by decide)⟩

-- ─── Claim C7: sync outcome bookkeeping ──────────────────────────────────────

theorem Sync.reconcileBatch_count {conn : Sync.ProviderConnection} {now : Nat} :
    ∀ (l : List Workflow) (ws : List Sync.WorkflowRecord),
      (Sync.reconcileBatch conn now l ws).2.1 = l.length := by
  intro l
  induction l with
  | nil => intro ws; rfl
  | cons w rest ih =>
    intro ws
    rw [Sync.reconcileBatch_cons]
    simp [ih]

/-- Claim C7: if the fetch fails, syncWorkflows writes no workflow records,
touches no connection, appends exactly one ERROR SyncLog entry with
workflowsCount 0 and returns failure with synced 0; if the batch completes,
it updates the connection lastSyncedAt and appends exactly one SUCCESS
SyncLog entry whose workflowsCount is the number of workflows actually
written, i.e. the number of raw payloads normalizeWorkflow did not reject. -/
theorem claimC7 (conn : Sync.ProviderConnection) (fetch : Sync.FetchWorkflowsResult)
    (nowIso : String) (now : Nat) (st : Sync.Store) :
    (fetch.success = false →
      (Sync.syncWorkflows conn fetch nowIso now st).1.workflows = st.workflows
      ∧ (Sync.syncWorkflows conn fetch nowIso now st).1.connections = st.connections
      ∧ (Sync.syncWorkflows conn fetch nowIso now st).1.syncLogs
          = st.syncLogs ++
            [{ connectionId := conn.id, userId := conn.userId,
               status := Sync.SyncStatus.ERROR, workflowsCount := 0,
               errorMessage := some (fetch.error.getD "Failed to fetch workflows") }]
      ∧ (Sync.syncWorkflows conn fetch nowIso now st).2
          = { success := false, synced := 0, error := fetch.error })
    ∧ (fetch.success = true →
      (Sync.syncWorkflows conn fetch nowIso now st).1.syncLogs
          = st.syncLogs ++
            [{ connectionId := conn.id, userId := conn.userId,
               status := Sync.SyncStatus.SUCCESS,
               workflowsCount := (fetch.workflows.filterMap
                 (fun raw => N8N.normalizeWorkflow raw conn.id nowIso)).length,
               errorMessage := none }]
      ∧ (Sync.syncWorkflows conn fetch nowIso now st).1.connections
          = st.connections.map (fun p => if p.1 == conn.id then (p.1, some now) else p)
      ∧ (Sync.syncWorkflows conn fetch nowIso now st).2
          = { success := true,
              synced := (fetch.workflows.filterMap
                (fun raw => N8N.normalizeWorkflow raw conn.id nowIso)).length,
              error := none }) := by
  constructor
  · intro h
    unfold Sync.syncWorkflows
    rw [h]
    exact ⟨rfl, rfl, rfl, rfl⟩
  · intro h
    unfold Sync.syncWorkflows
    rw [h]
    simp only [Bool.not_true, Bool.false_eq_true, if_false]
    refine ⟨?_, rfl, ?_⟩
    · simp [Sync.logSync, Sync.touchConnection, Sync.reconcileBatch_count]
    · simp [Sync.reconcileBatch_count]

/-- Witness for claim C7: a failing fetch logs one ERROR entry with count
zero and leaves the single stored row untouched; a successful fetch of two
payloads of which one is unparseable logs one SUCCESS entry with count 1. -/
theorem claimC7_witness :
    ((Sync.syncWorkflows { id := "c1", userId := "u1" }
        { success := false, workflows := [], error := some "boom" } "t" 3
        { workflows := [], syncLogs := [], connections := [("c1", none)] }).1.syncLogs
      = [] ++ [{ connectionId := "c1", userId := "u1",
                 status := Sync.SyncStatus.ERROR, workflowsCount := 0,
                 errorMessage := some "boom" }])
    ∧ ((Sync.syncWorkflows { id := "c1", userId := "u1" }
        { success := false, workflows := [], error := some "boom" } "t" 3
        { workflows := [], syncLogs := [], connections := [("c1", none)] }).2
      = { success := false, synced := 0, error := some "boom" })
    ∧ ((Sync.syncWorkflows { id := "c1", userId := "u1" }
        { success := true,
          workflows := [
            { id := some "w1", name := some "wf", active := some true,
              nodes := none, connections := none, createdAt := none, updatedAt := none },
            { id := none, name := some "broken", active := some true,
              nodes := none, connections := none, createdAt := none, updatedAt := none }],
          error := none } "t" 3
        { workflows := [], syncLogs := [], connections := [("c1", none)] }).1.syncLogs
      = [] ++ [{ connectionId := "c1", userId := "u1",
                 status := Sync.SyncStatus.SUCCESS, workflowsCount := 1,
                 errorMessage := none }]) := by
  have h1 := (claimC7 { id := "c1", userId := "u1" }
    { success := false, workflows := [], error := some "boom" } "t" 3
    { workflows := [], syncLogs := [], connections := [("c1", none)] }).1 rfl
  have h2 := (claimC7 { id := "c1", userId := "u1" }
    { success := true,
      workflows := [
        { id := some "w1", name := some "wf", active := some true,
          nodes := none, connections := none, createdAt := none, updatedAt := none },
        { id := none, name := some "broken", active := some true,
          nodes := none, connections := none, createdAt := none, updatedAt := none }],
      error := none } "t" 3
    { workflows := [], syncLogs := [], connections := [("c1", none)] }).2 rfl
  refine ⟨h1.2.2.1, h1.2.2.2, ?_⟩
  have := h2.1
  rw [this]
  rfl

-- ─── Claim C8: health derivation priority ────────────────────────────────────

/-- Claim C8: enrichment health is `broken` whenever the last execution
status is "error", regardless of staleness, the active flag or risk flags;
otherwise `warning` if the last execution lies more than 30 days before
`now` or if the workflow is inactive and never executed; otherwise
`warning` if any derived risk flag other than `inactive` is present;
otherwise `ok`.  In particular an active, recently-executed workflow with
no risk flags is `ok`. -/
theorem claimC8 (now : Int) (raw : Enrich.RawWorkflow) :
    ((Enrich.getEnrichmentForWorkflow now raw).health =
      (if raw.lastExecutionStatus == some "error" then Enrich.HealthStatus.broken
       else if (match raw.lastExecutionDate with
                | some t => decide (now - t > Enrich.STALE_THRESHOLD_DAYS * Enrich.msPerDay)
                | none => false)
           || (!raw.active && raw.lastExecutionDate == none) then
         Enrich.HealthStatus.warning
       else if ((Enrich.deriveRiskFlags raw (strLower raw.name)
             (Enrich.detectDomain (strLower raw.name))
             (Enrich.detectSystems (strLower raw.name))).filter
           (fun f => f != Enrich.RiskFlag.inactive)).length > 0 then
         Enrich.HealthStatus.warning
       else Enrich.HealthStatus.ok))
    ∧ (Enrich.getEnrichmentForWorkflow 1000
        { id := "1", name := "stripe payment sync", active := true,
          triggerType := none, nodesCount := some 3, hasPublicWebhook := none,
          nodes := none, lastExecutionStatus := some "success",
          lastExecutionDate := some 0 }).health = Enrich.HealthStatus.ok := by
  refine ⟨?_, by decide⟩
  show Enrich.deriveHealth now raw
    (Enrich.deriveRiskFlags raw (strLower raw.name)
      (Enrich.detectDomain (strLower raw.name))
      (Enrich.detectSystems (strLower raw.name))) = _
  unfold Enrich.deriveHealth
  cases h1 : raw.lastExecutionStatus == some "error"
  · simp only [Bool.false_eq_true, if_false]
    cases h2 : (match raw.lastExecutionDate with
        | some t => decide (now - t > Enrich.STALE_THRESHOLD_DAYS * Enrich.msPerDay)
        | none => false) <;>
      cases h3 : (!raw.active && raw.lastExecutionDate == none) <;>
        simp [h2, h3]
  · simp

-- ─── Helper lemmas: the duplicate-detection pair scan ────────────────────────

/-- The ordered pairs `(workflows[i], workflows[j])` with `i < j` that the
nested loops of `detectDuplicates` visit. -/
def Enrich.allPairs : List Enrich.WorkflowWithEnrichment →
    List (Enrich.WorkflowWithEnrichment × Enrich.WorkflowWithEnrichment)
  | [] => []
  | a :: rest => rest.map (fun b => (a, b)) ++ Enrich.allPairs rest

/-- Whether an emitted pair is about the unordered id pair `{a.id, b.id}`. -/
def Enrich.idsMatch (a b : Enrich.WorkflowWithEnrichment)
    (p : Enrich.DuplicatePair) : Bool :=
  (p.idA == a.id && p.idB == b.id) || (p.idA == b.id && p.idB == a.id)

/-- The inner loop without the `seen` bookkeeping. -/
def Enrich.innerSimple (a : Enrich.WorkflowWithEnrichment)
    (l : List Enrich.WorkflowWithEnrichment) : List Enrich.DuplicatePair :=
  l.filterMap (fun b =>
    if Enrich.exactCond a b then
      some { idA := a.id, nameA := a.name, idB := b.id, nameB := b.name,
             reason := .exact_name }
    else if Enrich.probCond a b then
      some { idA := a.id, nameA := a.name, idB := b.id, nameB := b.name,
             reason := .probable }
    else none)

/-- The double loop without the `seen` bookkeeping. -/
def Enrich.simplePairs : List Enrich.WorkflowWithEnrichment →
    List Enrich.DuplicatePair
  | [] => []
  | a :: rest => Enrich.innerSimple a rest ++ Enrich.simplePairs rest

/-- When no visited key is already in `seen` and the keys of the row are
pairwise distinct, the inner loop emits exactly the simple filter and only
adds keys of visited pairs to `seen`. -/
theorem Enrich.dupInner_eq (a : Enrich.WorkflowWithEnrichment) :
    ∀ (l : List Enrich.WorkflowWithEnrichment) (seen : List String),
      (∀ b ∈ l, Enrich.pairKey a b ∉ seen) →
      (l.map (fun b => Enrich.pairKey a b)).Nodup →
      (Enrich.dupInner a l seen).1 = Enrich.innerSimple a l
      ∧ ∀ k ∈ (Enrich.dupInner a l seen).2,
          k ∈ seen ∨ ∃ b ∈ l, k = Enrich.pairKey a b := by
  intro l
  induction l with
  | nil =>
    intro seen _ _
    exact ⟨rfl, fun k hk => Or.inl hk⟩
  | cons b rest ih =>
    intro seen hseen hnodup
    have hb : Enrich.pairKey a b ∉ seen := hseen b (List.mem_cons_self b rest)
    have hcont : seen.contains (Enrich.pairKey a b) = false := by
      simpa using hb
    have hnodup2 : (rest.map (fun x => Enrich.pairKey a x)).Nodup :=
      (List.nodup_cons.mp hnodup).2
    have hne : ∀ x ∈ rest, Enrich.pairKey a x ≠ Enrich.pairKey a b := by
      intro x hx
      intro he
      have hmx : Enrich.pairKey a x ∈ rest.map (fun y => Enrich.pairKey a y) :=
        List.mem_map.mpr ⟨x, hx, rfl⟩
      rw [he] at hmx
      exact (List.nodup_cons.mp hnodup).1 hmx
    have hseen2 : ∀ x ∈ rest, Enrich.pairKey a x ∉ Enrich.pairKey a b :: seen := by
      intro x hx hmem
      rcases List.mem_cons.mp hmem with he | hmem2
      · exact hne x hx he
      · exact hseen x (List.mem_cons_of_mem _ hx) hmem2
    have hseen3 : ∀ x ∈ rest, Enrich.pairKey a x ∉ seen :=
      fun x hx => hseen x (List.mem_cons_of_mem _ hx)
    rw [Enrich.dupInner]
    simp only [hcont, Bool.false_eq_true, if_false]
    cases hex : Enrich.exactCond a b with
    | true =>
      obtain ⟨ih1, ih2⟩ := ih (Enrich.pairKey a b :: seen) hseen2 hnodup2
      constructor
      · show _ :: (Enrich.dupInner a rest (Enrich.pairKey a b :: seen)).1 = _
        rw [ih1]
        simp [Enrich.innerSimple, List.filterMap_cons, hex]
      · intro k hk
        have hk2 : k ∈ (Enrich.dupInner a rest (Enrich.pairKey a b :: seen)).2 := hk
        rcases ih2 k hk2 with hks | ⟨x, hx, he⟩
        · rcases List.mem_cons.mp hks with he | hs
          · exact Or.inr ⟨b, List.mem_cons_self b rest, he⟩
          · exact Or.inl hs
        · exact Or.inr ⟨x, List.mem_cons_of_mem _ hx, he⟩
    | false =>
      cases hpr : Enrich.probCond a b with
      | true =>
        obtain ⟨ih1, ih2⟩ := ih (Enrich.pairKey a b :: seen) hseen2 hnodup2
        constructor
        · show _ :: (Enrich.dupInner a rest (Enrich.pairKey a b :: seen)).1 = _
          rw [ih1]
          simp [Enrich.innerSimple, List.filterMap_cons, hex, hpr]
        · intro k hk
          have hk2 : k ∈ (Enrich.dupInner a rest (Enrich.pairKey a b :: seen)).2 := hk
          rcases ih2 k hk2 with hks | ⟨x, hx, he⟩
          · rcases List.mem_cons.mp hks with he | hs
            · exact Or.inr ⟨b, List.mem_cons_self b rest, he⟩
            · exact Or.inl hs
          · exact Or.inr ⟨x, List.mem_cons_of_mem _ hx, he⟩
      | false =>
        obtain ⟨ih1, ih2⟩ := ih seen hseen3 hnodup2
        constructor
        · show (Enrich.dupInner a rest seen).1 = _
          rw [ih1]
          simp [Enrich.innerSimple, List.filterMap_cons, hex, hpr]
        · intro k hk
          rcases ih2 k hk with hs | ⟨x, hx, he⟩
          · exact Or.inl hs
          · exact Or.inr ⟨x, List.mem_cons_of_mem _ hx, he⟩

/-- When all visited keys are pairwise distinct and none is in `seen`, the
whole scan emits exactly the simple double filter. -/
theorem Enrich.dupPairs_eq_simple :
    ∀ (ws : List Enrich.WorkflowWithEnrichment) (seen : List String),
      ((Enrich.allPairs ws).map (fun q => Enrich.pairKey q.1 q.2)).Nodup →
      (∀ q ∈ Enrich.allPairs ws, Enrich.pairKey q.1 q.2 ∉ seen) →
      Enrich.dupPairs ws seen = Enrich.simplePairs ws := by
  intro ws
  induction ws with
  | nil => intro seen _ _; rfl
  | cons a rest ih =>
    intro seen hnodup hseen
    have hsplit : ((rest.map (fun b => (a, b)) ++ Enrich.allPairs rest).map
        (fun q => Enrich.pairKey q.1 q.2)).Nodup := hnodup
    rw [List.map_append] at hsplit
    have hrow : (rest.map (fun b => Enrich.pairKey a b)).Nodup := by
      have := hsplit.of_append_left
      simpa [List.map_map, Function.comp] using this
    have hrownotin : ∀ b ∈ rest, Enrich.pairKey a b ∉ seen := by
      intro b hb
      exact hseen (a, b) (by
        rw [Enrich.allPairs]
        exact List.mem_append_left _ (List.mem_map.mpr ⟨b, hb, rfl⟩))
    obtain ⟨h1, h2⟩ := Enrich.dupInner_eq a rest seen hrownotin hrow
    have hdisj : ∀ k ∈ (rest.map (fun b => Enrich.pairKey a b)),
        k ∉ ((Enrich.allPairs rest).map (fun q => Enrich.pairKey q.1 q.2)) := by
      intro k hk
      have := List.disjoint_of_nodup_append (by
        simpa [List.map_map, Function.comp] using hsplit)
      exact fun hmem => this hk hmem
    have hseen1 : ∀ q ∈ Enrich.allPairs rest,
        Enrich.pairKey q.1 q.2 ∉ (Enrich.dupInner a rest seen).2 := by
      intro q hq hmem
      rcases h2 _ hmem with hs | ⟨b, hb, he⟩
      · exact hseen q (by
          rw [Enrich.allPairs]
          exact List.mem_append_right _ hq) hs
      · exact hdisj (Enrich.pairKey q.1 q.2)
          (he ▸ List.mem_map.mpr ⟨b, hb, rfl⟩)
          (List.mem_map.mpr ⟨q, hq, rfl⟩)
    have hnodup1 : ((Enrich.allPairs rest).map
        (fun q => Enrich.pairKey q.1 q.2)).Nodup := hsplit.of_append_right
    show (Enrich.dupInner a rest seen).1
        ++ Enrich.dupPairs rest (Enrich.dupInner a rest seen).2 = _
    rw [h1, ih _ hnodup1 hseen1, Enrich.simplePairs]

theorem Enrich.mem_allPairs :
    ∀ {ws : List Enrich.WorkflowWithEnrichment}
      {q : Enrich.WorkflowWithEnrichment × Enrich.WorkflowWithEnrichment},
      q ∈ Enrich.allPairs ws → q.1 ∈ ws ∧ q.2 ∈ ws := by
  intro ws
  induction ws with
  | nil => intro q hq; simp [Enrich.allPairs] at hq
  | cons a rest ih =>
    intro q hq
    rw [Enrich.allPairs] at hq
    rcases List.mem_append.mp hq with h1 | h2
    · obtain ⟨b, hb, rfl⟩ := List.mem_map.mp h1
      exact ⟨List.mem_cons_self a rest, List.mem_cons_of_mem _ hb⟩
    · obtain ⟨ha, hb⟩ := ih h2
      exact ⟨List.mem_cons_of_mem _ ha, List.mem_cons_of_mem _ hb⟩

theorem Enrich.mem_innerSimple {a : Enrich.WorkflowWithEnrichment}
    {l : List Enrich.WorkflowWithEnrichment} {p : Enrich.DuplicatePair}
    (h : p ∈ Enrich.innerSimple a l) :
    p.idA = a.id ∧ p.idB ∈ l.map (fun w => w.id) := by
  unfold Enrich.innerSimple at h
  obtain ⟨b, hb, he⟩ := List.mem_filterMap.mp h
  revert he
  split
  · intro he
    cases he
    exact ⟨rfl, List.mem_map.mpr ⟨b, hb, rfl⟩⟩
  · split
    · intro he
      cases he
      exact ⟨rfl, List.mem_map.mpr ⟨b, hb, rfl⟩⟩
    · intro he
      cases he

theorem Enrich.mem_simplePairs :
    ∀ {ws : List Enrich.WorkflowWithEnrichment} {p : Enrich.DuplicatePair},
      p ∈ Enrich.simplePairs ws →
      p.idA ∈ ws.map (fun w => w.id) ∧ p.idB ∈ ws.map (fun w => w.id) := by
  intro ws
  induction ws with
  | nil => intro p hp; simp [Enrich.simplePairs] at hp
  | cons a rest ih =>
    intro p hp
    rw [Enrich.simplePairs] at hp
    rcases List.mem_append.mp hp with h1 | h2
    · obtain ⟨he, hb⟩ := Enrich.mem_innerSimple h1
      constructor
      · simp [he]
      · simp only [List.map_cons]
        exact List.mem_cons_of_mem _ hb
    · obtain ⟨ha, hb⟩ := ih h2
      exact ⟨List.mem_cons_of_mem _ ha, List.mem_cons_of_mem _ hb⟩

theorem Enrich.innerSimple_filter {a b : Enrich.WorkflowWithEnrichment} :
    ∀ (l : List Enrich.WorkflowWithEnrichment), b ∈ l →
      ((a.id :: l.map (fun w => w.id)).Nodup) →
      (Enrich.innerSimple a l).filter (Enrich.idsMatch a b)
        = (if Enrich.exactCond a b then
            [{ idA := a.id, nameA := a.name, idB := b.id, nameB := b.name,
               reason := .exact_name }]
          else if Enrich.probCond a b then
            [{ idA := a.id, nameA := a.name, idB := b.id, nameB := b.name,
               reason := .probable }]
          else []) := by
  intro l
  induction l with
  | nil => intro hb; simp at hb
  | cons d rest ih =>
    intro hb hnodup
    have hanotin : a.id ∉ (d :: rest).map (fun w => w.id) :=
      (List.nodup_cons.mp hnodup).1
    have hidsnodup : ((d :: rest).map (fun w => w.id)).Nodup :=
      (List.nodup_cons.mp hnodup).2
    have hdnotin : d.id ∉ rest.map (fun w => w.id) := by
      rw [List.map_cons] at hidsnodup
      exact (List.nodup_cons.mp hidsnodup).1
    rcases List.mem_cons.mp hb with rfl | hbr
    · -- b is the head element
      have hab : a.id ≠ b.id := by
        intro he
        exact hanotin (by
          rw [List.map_cons, he]
          exact List.mem_cons_self _ _)
      have hrest0 : (Enrich.innerSimple a rest).filter (Enrich.idsMatch a b) = [] := by
        rw [List.filter_eq_nil_iff]
        intro p hp
        obtain ⟨hA, hB⟩ := Enrich.mem_innerSimple hp
        intro hm
        unfold Enrich.idsMatch at hm
        rcases Bool.or_eq_true_iff.mp hm with h1 | h2
        · have hBb : p.idB = b.id := by
            have := (Bool.and_eq_true_iff.mp h1).2
            simpa using this
          exact hdnotin (hBb ▸ hB)
        · have hAb : p.idA = b.id := by
            have := (Bool.and_eq_true_iff.mp h2).1
            simpa using this
          exact hab (by rw [← hA, hAb])
      have hmatch : ∀ (re : Enrich.DupReason), Enrich.idsMatch a b
          { idA := a.id, nameA := a.name, idB := b.id, nameB := b.name,
            reason := re } = true := by
        intro re
        simp [Enrich.idsMatch]
      unfold Enrich.innerSimple
      rw [List.filterMap_cons]
      cases hex : Enrich.exactCond a b with
      | true =>
        simp only [hex, if_true]
        rw [List.filter_cons]
        simp only [hmatch, if_true]
        rw [show List.filterMap _ rest = Enrich.innerSimple a rest from rfl, hrest0]
      | false =>
        simp only [hex, Bool.false_eq_true, if_false]
        cases hpr : Enrich.probCond a b with
        | true =>
          simp only [hpr, if_true]
          rw [List.filter_cons]
          simp only [hmatch, if_true]
          rw [show List.filterMap _ rest = Enrich.innerSimple a rest from rfl, hrest0]
        | false =>
          simp only [hpr, Bool.false_eq_true, if_false]
          rw [show List.filterMap _ rest = Enrich.innerSimple a rest from rfl, hrest0]
    · -- b occurs in the tail
      have hdb : d.id ≠ b.id := by
        intro he
        exact hdnotin (he ▸ List.mem_map.mpr ⟨b, hbr, rfl⟩)
      have hab : a.id ≠ b.id := by
        intro he
        exact hanotin (by
          rw [he]
          exact List.mem_map.mpr ⟨b, List.mem_cons_of_mem _ hbr, rfl⟩)
      have hheadskip : ∀ (re : Enrich.DupReason), Enrich.idsMatch a b
          { idA := a.id, nameA := a.name, idB := d.id, nameB := d.name,
            reason := re } = false := by
        intro re
        simp [Enrich.idsMatch, hdb, hab]
      have hsub : (a.id :: rest.map (fun w => w.id)).Nodup := by
        refine List.Nodup.sublist ?_ hnodup
        rw [List.map_cons]
        exact List.Sublist.cons₂ _ (List.sublist_cons_self _ _)
      have ihr := ih hbr hsub
      unfold Enrich.innerSimple
      rw [List.filterMap_cons]
      cases hex : Enrich.exactCond a d with
      | true =>
        simp only [hex, if_true]
        rw [List.filter_cons]
        simp only [hheadskip, Bool.false_eq_true, if_false]
        exact ihr
      | false =>
        simp only [hex, Bool.false_eq_true, if_false]
        cases hpr : Enrich.probCond a d with
        | true =>
          simp only [hpr, if_true]
          rw [List.filter_cons]
          simp only [hheadskip, Bool.false_eq_true, if_false]
          exact ihr
        | false =>
          simp only [hpr, Bool.false_eq_true, if_false]
          exact ihr

theorem Enrich.simplePairs_filter :
    ∀ (ws : List Enrich.WorkflowWithEnrichment)
      (a b : Enrich.WorkflowWithEnrichment),
      (a, b) ∈ Enrich.allPairs ws →
      (ws.map (fun w => w.id)).Nodup →
      (Enrich.simplePairs ws).filter (Enrich.idsMatch a b)
        = (if Enrich.exactCond a b then
            [{ idA := a.id, nameA := a.name, idB := b.id, nameB := b.name,
               reason := .exact_name }]
          else if Enrich.probCond a b then
            [{ idA := a.id, nameA := a.name, idB := b.id, nameB := b.name,
               reason := .probable }]
          else []) := by
  intro ws
  induction ws with
  | nil => intro a b hq; simp [Enrich.allPairs] at hq
  | cons c rest ih =>
    intro a b hq hnodup
    have hcnotin : c.id ∉ rest.map (fun w => w.id) := by
      rw [List.map_cons] at hnodup
      exact (List.nodup_cons.mp hnodup).1
    have htail : (rest.map (fun w => w.id)).Nodup := by
      rw [List.map_cons] at hnodup
      exact (List.nodup_cons.mp hnodup).2
    rw [Enrich.simplePairs, List.filter_append]
    rw [Enrich.allPairs] at hq
    rcases List.mem_append.mp hq with h1 | h2
    · obtain ⟨x, hx, hxe⟩ := List.mem_map.mp h1
      injection hxe with he1 he2
      rw [he2] at hx
      rw [he1] at hcnotin ⊢
      have hrest0 : (Enrich.simplePairs rest).filter (Enrich.idsMatch a b) = [] := by
        rw [List.filter_eq_nil_iff]
        intro p hp
        obtain ⟨hA, hB⟩ := Enrich.mem_simplePairs hp
        intro hm
        unfold Enrich.idsMatch at hm
        rcases Bool.or_eq_true_iff.mp hm with hh | hh
        · have hAa : p.idA = a.id := by
            have := (Bool.and_eq_true_iff.mp hh).1
            simpa using this
          exact hcnotin (hAa ▸ hA)
        · have hBa : p.idB = a.id := by
            have := (Bool.and_eq_true_iff.mp hh).2
            simpa using this
          exact hcnotin (hBa ▸ hB)
      rw [hrest0, List.append_nil]
      exact Enrich.innerSimple_filter rest hx (by
        rw [List.map_cons, he1] at hnodup
        exact hnodup)
    · obtain ⟨ha, hb⟩ := Enrich.mem_allPairs h2
      have hane : a.id ≠ c.id := by
        intro he
        exact hcnotin (he ▸ List.mem_map.mpr ⟨a, ha, rfl⟩)
      have hbne : b.id ≠ c.id := by
        intro he
        exact hcnotin (he ▸ List.mem_map.mpr ⟨b, hb, rfl⟩)
      have hinner0 : (Enrich.innerSimple c rest).filter (Enrich.idsMatch a b) = [] := by
        rw [List.filter_eq_nil_iff]
        intro p hp
        obtain ⟨hA, hB⟩ := Enrich.mem_innerSimple hp
        intro hm
        unfold Enrich.idsMatch at hm
        rcases Bool.or_eq_true_iff.mp hm with hh | hh
        · have hAa : p.idA = a.id := by
            have := (Bool.and_eq_true_iff.mp hh).1
            simpa using this
          exact hane (by rw [← hAa, hA])
        · have hAb : p.idA = b.id := by
            have := (Bool.and_eq_true_iff.mp hh).1
            simpa using this
          exact hbne (by rw [← hAb, hA])
      rw [hinner0, List.nil_append]
      exact ih a b h2 htail

theorem Enrich.lookup_map_ne {k k' : String} {cur : List String} (hne : k' ≠ k) :
    ∀ (m : List (String × List String)),
      List.lookup k' (m.map (fun p => if p.1 == k then (p.1, cur) else p))
        = List.lookup k' m := by
  intro m
  induction m with
  | nil => rfl
  | cons p rest ih =>
    by_cases hp : p.1 = k
    · simp only [List.map_cons, hp, beq_self_eq_true, if_true]
      rw [List.lookup, List.lookup]
      have hkk : (k' == k) = false := beq_eq_false_iff_ne.mpr hne
      rw [hp, hkk]
      exact ih
    · simp only [List.map_cons, beq_eq_false_iff_ne.mpr hp, Bool.false_eq_true, if_false]
      rw [List.lookup, List.lookup]
      cases hkp : k' == p.1
      · exact ih
      · rfl

theorem Enrich.lookup_map_self {k : String} {cur : List String} :
    ∀ (m : List (String × List String)),
      m.any (fun p => p.1 == k) = true →
      List.lookup k (m.map (fun p => if p.1 == k then (p.1, cur) else p))
        = some cur := by
  intro m
  induction m with
  | nil => intro h; simp at h
  | cons p rest ih =>
    intro h
    by_cases hp : p.1 = k
    · simp only [List.map_cons, hp, beq_self_eq_true, if_true]
      rw [List.lookup]
      simp [hp]
    · simp only [List.map_cons, beq_eq_false_iff_ne.mpr hp, Bool.false_eq_true, if_false]
      rw [List.lookup]
      have hkp : (k == p.1) = false := beq_eq_false_iff_ne.mpr (fun he => hp he.symm)
      rw [hkp]
      simp only
      refine ih ?_
      rw [List.any_cons, beq_eq_false_iff_ne.mpr hp] at h
      simpa using h

theorem Enrich.lookup_append_single {k k' : String} {cur : List String} :
    ∀ (m : List (String × List String)),
      List.lookup k' (m ++ [(k, cur)])
        = (match List.lookup k' m with
           | some x => some x
           | none => if k' == k then some cur else none) := by
  intro m
  induction m with
  | nil =>
    simp only [List.nil_append, List.lookup]
    cases hkk : k' == k <;> simp [hkk]
  | cons p rest ih =>
    rw [List.cons_append, List.lookup, List.lookup]
    cases hkp : k' == p.1
    · exact ih
    · rfl

theorem Enrich.any_eq_false_lookup {k : String} :
    ∀ (m : List (String × List String)),
      m.any (fun p => p.1 == k) = false → List.lookup k m = none := by
  intro m
  induction m with
  | nil => intro _; rfl
  | cons p rest ih =>
    intro h
    rw [List.any_cons] at h
    obtain ⟨h1, h2⟩ := Bool.or_eq_false_iff.mp h
    rw [List.lookup]
    have : (k == p.1) = false := by
      rcases beq_eq_false_iff_ne.mp h1 with hne
      exact beq_eq_false_iff_ne.mpr (fun he => hne he.symm)
    rw [this]
    exact ih h2

/-- The keyed lookup after `map.set(k, [...(map.get(k) ?? []), v])`. -/
theorem Enrich.dmapSet_lookup (m : List (String × List String)) (k v k' : String) :
    List.lookup k' (Enrich.dmapSet m k v)
      = (if k' = k then some (((List.lookup k m).getD []) ++ [v])
         else List.lookup k' m) := by
  unfold Enrich.dmapSet
  cases hany : m.any (fun p => p.1 == k) with
  | true =>
    simp only [hany, if_true]
    by_cases hk : k' = k
    · rw [hk, Enrich.lookup_map_self m hany, if_pos rfl]
    · rw [Enrich.lookup_map_ne hk m, if_neg hk]
  | false =>
    simp only [hany, Bool.false_eq_true, if_false]
    rw [Enrich.lookup_append_single m]
    have hnone := Enrich.any_eq_false_lookup m hany
    by_cases hk : k' = k
    · rw [hk, hnone]
      simp
    · rw [if_neg hk]
      cases hl : List.lookup k' m
      · simp [beq_eq_false_iff_ne.mpr hk]
      · rfl

theorem Enrich.dmapSet_mem_self (m : List (String × List String)) (k v : String) :
    v ∈ (List.lookup k (Enrich.dmapSet m k v)).getD [] := by
  rw [Enrich.dmapSet_lookup, if_pos rfl]
  simp

theorem Enrich.dmapSet_mem_mono {m : List (String × List String)} {k' x : String}
    (h : x ∈ (List.lookup k' m).getD []) (k v : String) :
    x ∈ (List.lookup k' (Enrich.dmapSet m k v)).getD [] := by
  rw [Enrich.dmapSet_lookup]
  by_cases hk : k' = k
  · subst hk
    rw [if_pos rfl]
    simp only [Option.getD_some]
    exact List.mem_append_left _ h
  · rw [if_neg hk]
    exact h

theorem Enrich.foldl_dmapSet_mono {x k : String} :
    ∀ (ps : List Enrich.DuplicatePair) (m : List (String × List String)),
      x ∈ (List.lookup k m).getD [] →
      x ∈ (List.lookup k (ps.foldl
        (fun m p => Enrich.dmapSet (Enrich.dmapSet m p.idA p.nameB) p.idB p.nameA)
        m)).getD [] := by
  intro ps
  induction ps with
  | nil => intro m h; exact h
  | cons p rest ih =>
    intro m h
    rw [List.foldl_cons]
    exact ih _ (Enrich.dmapSet_mem_mono (Enrich.dmapSet_mem_mono h p.idA p.nameB)
      p.idB p.nameA)

/-- Every emitted pair is reflected in the id-to-names map in both
directions. -/
theorem Enrich.buildDupMap_mem :
    ∀ (ps : List Enrich.DuplicatePair) (m : List (String × List String))
      (p : Enrich.DuplicatePair), p ∈ ps →
      p.nameB ∈ (List.lookup p.idA (ps.foldl
        (fun m q => Enrich.dmapSet (Enrich.dmapSet m q.idA q.nameB) q.idB q.nameA)
        m)).getD []
      ∧ p.nameA ∈ (List.lookup p.idB (ps.foldl
        (fun m q => Enrich.dmapSet (Enrich.dmapSet m q.idA q.nameB) q.idB q.nameA)
        m)).getD [] := by
  intro ps
  induction ps with
  | nil => intro m p hp; simp at hp
  | cons q rest ih =>
    intro m p hp
    rcases List.mem_cons.mp hp with rfl | hp2
    · rw [List.foldl_cons]
      constructor
      · exact Enrich.foldl_dmapSet_mono rest _
          (Enrich.dmapSet_mem_mono (Enrich.dmapSet_mem_self m p.idA p.nameB)
            p.idB p.nameA)
      · exact Enrich.foldl_dmapSet_mono rest _
          (Enrich.dmapSet_mem_self (Enrich.dmapSet m p.idA p.nameB) p.idB p.nameA)
    · rw [List.foldl_cons]
      exact ih _ p hp2

-- ─── Claim C9: duplicate detection ───────────────────────────────────────────

/-- Claim C9 counterexample: the claim asserts a probable pair is emitted
whenever two distinct-named workflows share a non-Unknown domain, the same
output and the same normalized first three words; but the source demands in
addition a nonempty first-words prefix (`firstWords(a.name).length > 0`,
enrichment.ts line 108).  Two workflows whose names consist only of
separator characters satisfy every claimed condition (their first-words
prefixes are equal, both empty) yet no pair is emitted. -/
theorem claimC9_counterexample :
    (strLower (strTrim "-") ≠ strLower (strTrim "→"))
    ∧ (({ domain := .Sales, output := "o", systems := [], riskFlags := [],
          health := .ok, confidence := 65, reason := "r" } :
        Enrich.WorkflowEnrichment).domain
      = ({ domain := .Sales, output := "o", systems := [], riskFlags := [],
           health := .ok, confidence := 65, reason := "r" } :
        Enrich.WorkflowEnrichment).domain)
    ∧ (Enrich.WorkflowDomain.Sales ≠ Enrich.WorkflowDomain.Unknown)
    ∧ (Enrich.firstWords "-" = Enrich.firstWords "→")
    ∧ (Enrich.detectDuplicates
        [{ id := "a", name := "-",
           enrichment := { domain := .Sales, output := "o", systems := [],
                           riskFlags := [], health := .ok, confidence := 65,
                           reason := "r" } },
         { id := "b", name := "→",
           enrichment := { domain := .Sales, output := "o", systems := [],
                           riskFlags := [], health := .ok, confidence := 65,
                           reason := "r" } }]).1 = [] := by
  refine ⟨by decide, rfl, by decide, by decide, by decide⟩

/-- Claim C9 (amended): over a working set with pairwise-distinct ids and
pairwise-distinct visited pair keys, for every unordered pair the scan
emits exactly one pair with reason exact_name when the trimmed names match
case-insensitively; otherwise exactly one pair with reason probable when
both have the same non-Unknown domain, the same derived output and the
same nonempty normalized first-three-words prefix; otherwise none; and the
returned map associates each id of an emitted pair with the name it was
paired against, in both directions. -/
theorem claimC9_amended (ws : List Enrich.WorkflowWithEnrichment)
    (hid : (ws.map (fun w => w.id)).Nodup)
    (hkeys : ((Enrich.allPairs ws).map (fun q => Enrich.pairKey q.1 q.2)).Nodup) :
    (∀ q ∈ Enrich.allPairs ws,
      (Enrich.detectDuplicates ws).1.filter (Enrich.idsMatch q.1 q.2)
        = (if Enrich.exactCond q.1 q.2 then
            [{ idA := q.1.id, nameA := q.1.name, idB := q.2.id, nameB := q.2.name,
               reason := .exact_name }]
          else if Enrich.probCond q.1 q.2 then
            [{ idA := q.1.id, nameA := q.1.name, idB := q.2.id, nameB := q.2.name,
               reason := .probable }]
          else []))
    ∧ (∀ p ∈ (Enrich.detectDuplicates ws).1,
        p.nameB ∈ (List.lookup p.idA (Enrich.detectDuplicates ws).2).getD []
        ∧ p.nameA ∈ (List.lookup p.idB (Enrich.detectDuplicates ws).2).getD []) := by
  have heq : (Enrich.detectDuplicates ws).1 = Enrich.simplePairs ws :=
    Enrich.dupPairs_eq_simple ws [] hkeys (by simp)
  constructor
  · intro q hq
    rw [heq]
    exact Enrich.simplePairs_filter ws q.1 q.2 hq hid
  · intro p hp
    exact Enrich.buildDupMap_mem (Enrich.dupPairs ws []) [] p hp

/-- Witness for claim C9 (amended): two workflows both named
"Weekly Report" yield exactly one exact_name pair, and each name appears in
the other id entry of the map. -/
theorem claimC9_amended_witness :
    (([{ id := "a", name := "Weekly Report",
         enrichment := { domain := .Operations, output := "o", systems := [],
                         riskFlags := [], health := .ok, confidence := 65,
                         reason := "r" } },
       ({ id := "b", name := "Weekly Report",
          enrichment := { domain := .Operations, output := "o", systems := [],
                          riskFlags := [], health := .ok, confidence := 65,
                          reason := "r" } } : Enrich.WorkflowWithEnrichment)].map
        (fun w => w.id)).Nodup)
    ∧ (Enrich.detectDuplicates
        [{ id := "a", name := "Weekly Report",
           enrichment := { domain := .Operations, output := "o", systems := [],
                           riskFlags := [], health := .ok, confidence := 65,
                           reason := "r" } },
         { id := "b", name := "Weekly Report",
           enrichment := { domain := .Operations, output := "o", systems := [],
                           riskFlags := [], health := .ok, confidence := 65,
                           reason := "r" } }]).1.filter
        (Enrich.idsMatch
          { id := "a", name := "Weekly Report",
            enrichment := { domain := .Operations, output := "o", systems := [],
                            riskFlags := [], health := .ok, confidence := 65,
                            reason := "r" } }
          { id := "b", name := "Weekly Report",
            enrichment := { domain := .Operations, output := "o", systems := [],
                            riskFlags := [], health := .ok, confidence := 65,
                            reason := "r" } })
      = [{ idA := "a", nameA := "Weekly Report", idB := "b",
           nameB := "Weekly Report", reason := .exact_name }]
    ∧ ("Weekly Report" ∈ (List.lookup "a"
        (Enrich.detectDuplicates
          [{ id := "a", name := "Weekly Report",
             enrichment := { domain := .Operations, output := "o", systems := [],
                             riskFlags := [], health := .ok, confidence := 65,
                             reason := "r" } },
           { id := "b", name := "Weekly Report",
             enrichment := { domain := .Operations, output := "o", systems := [],
                             riskFlags := [], health := .ok, confidence := 65,
                             reason := "r" } }]).2).getD [])
    ∧ ("Weekly Report" ∈ (List.lookup "b"
        (Enrich.detectDuplicates
          [{ id := "a", name := "Weekly Report",
             enrichment := { domain := .Operations, output := "o", systems := [],
                             riskFlags := [], health := .ok, confidence := 65,
                             reason := "r" } },
           { id := "b", name := "Weekly Report",
             enrichment := { domain := .Operations, output := "o", systems := [],
                             riskFlags := [], health := .ok, confidence := 65,
                             reason := "r" } }]).2).getD []) := by
  have h := claimC9_amended
    [{ id := "a", name := "Weekly Report",
       enrichment := { domain := .Operations, output := "o", systems := [],
                       riskFlags := [], health := .ok, confidence := 65,
                       reason := "r" } },
     { id := "b", name := "Weekly Report",
       enrichment := { domain := .Operations, output := "o", systems := [],
                       riskFlags := [], health := .ok, confidence := 65,
                       reason := "r" } }]
    (by decide) (by decide)
  have h1 := h.1
    ({ id := "a", name := "Weekly Report",
       enrichment := { domain := .Operations, output := "o", systems := [],
                       riskFlags := [], health := .ok, confidence := 65,
                       reason := "r" } },
     { id := "b", name := "Weekly Report",
       enrichment := { domain := .Operations, output := "o", systems := [],
                       riskFlags := [], health := .ok, confidence := 65,
                       reason := "r" } })
    (by decide)
  have h2 := h.2
    { idA := "a", nameA := "Weekly Report", idB := "b", nameB := "Weekly Report",
      reason := .exact_name }
    (by decide)
  refine ⟨by decide, ?_, h2.1, h2.2⟩
  rw [h1]
  decide
